import Mathlib

/-!
Formal model of the `billing-engine` loan domain (Go sources under
`internal/entity` and `internal/service`) and proofs about it.

Modelling conventions:

- `shopspring/decimal` values are arbitrary-precision decimals
  (an integer coefficient times a power of ten), a subset of `ℚ`.
  We carry them as `ℚ`: `Add`/`Sub`/`Mul` are exact on decimals and on `ℚ`;
  `RoundUp n` rounds away from zero, `RoundDown n` toward zero, `Round n`
  half away from zero, each at `n` decimal places (the code only uses
  `n = 0`); `Div` is `DivRound` at `DivisionPrecision = 16` decimal
  places, rounding half away from zero, modelled by `divRound16`.
  `Equal`/`IsZero`/`IsNegative`/`LessThanOrEqual` compare values, which
  matches `ℚ` equality and order.
- `time.Time` (always `.UTC()` in this code) is modelled as nanoseconds
  since the Unix epoch, an `ℤ`.  Go's civil calendar has uniform 86400-second
  days, so the date of a time is its floored day number and
  `time.Date(y, m, d, 0,0,0,0, UTC)` of that date is `day * nsPerDay`.
  Jan 1 1970 was a Thursday (Go `Weekday` 4).  `time.Time.Sub` saturates at
  the `Duration` bounds (`±2^63` ns), modelled by `goSub`.  The zero
  `time.Time` (Jan 1, year 1) is `goZeroTime` in this encoding.
  `Duration.Hours` performs `float64` divisions; we idealize them as exact
  rational arithmetic (for the quantities reachable here the two agree
  except at most a nanosecond from a week boundary at large magnitudes).
- `uuid.UUID` is modelled as `ℕ` with `0` for `uuid.Nil`.  `uuid.NewV7`
  and `time.Now()` are nondeterministic inputs, passed as explicit
  parameters to the operations that call them.
- A Go pointer receiver or argument that the code compares with `nil`
  is modelled as an `Option`; methods that mutate their receiver return
  the post-state explicitly.
-/

namespace BillingEngine

/-! ## Decimal rounding primitives (shopspring/decimal semantics) -/

/-- Truncation toward zero, the value of `RoundDown(0)` and of Go's
float-to-int conversion. -/
def truncQ (x : ℚ) : ℤ := if 0 ≤ x then ⌊x⌋ else ⌈x⌉

/-- Rounding away from zero, the value of `RoundUp(0)`. -/
def roundAway (x : ℚ) : ℤ := if 0 ≤ x then ⌈x⌉ else ⌊x⌋

/-- Rounding half away from zero, the value of `Round(0)`. -/
def roundHalfAway (x : ℚ) : ℤ := if 0 ≤ x then ⌊x + 1/2⌋ else ⌈x - 1/2⌉

/-- Division result precision of `decimal.Div`: 16 decimal places. -/
def divPrecisionPow : ℤ := 10 ^ 16

/-- The value `decimal.Div` returns for an exact quotient `x`: `x` rounded
half away from zero at 16 decimal places (`DivRound` at
`DivisionPrecision = 16`). -/
def divRound16 (x : ℚ) : ℚ := (roundHalfAway (x * divPrecisionPow) : ℚ) / divPrecisionPow

/-! ## Error taxonomy (`internal/common/businesserror`) -/

/-- Error kinds (`businesserror.Kind`): `KindInternal`, `KindBadRequest`,
`KindUnprocessableEntity`, `KindNotFound`, `KindAlreadyExists`. -/
inductive Kind where
  | internal
  | badRequest
  | unprocessableEntity
  | notFound
  | alreadyExists
deriving DecidableEq, Repr

/-- The struct `businesserror.BusinessError`: a message and a kind. -/
structure BusinessError where
  msg : String
  kind : Kind
deriving DecidableEq, Repr

def ErrLoanEmptyID : BusinessError := ⟨"loan id cannot be empty", Kind.badRequest⟩
def ErrLoanEmptyUserID : BusinessError := ⟨"loan user id cannot be empty", Kind.badRequest⟩
def ErrLoanInvalidAmount : BusinessError := ⟨"loan amount must be greater than zero", Kind.badRequest⟩
def ErrLoanInvalidPaymentDurationWeeks : BusinessError := ⟨"loan payment duration must be at least 1 week", Kind.badRequest⟩
def ErrLoanInvalidPaymentAmount : BusinessError := ⟨"loan payment amount must be greater than zero", Kind.badRequest⟩
def ErrLoanInvalidStatus : BusinessError := ⟨"invalid loan status", Kind.badRequest⟩
def ErrLoanEmptyCreatedAt : BusinessError := ⟨"created at cannot be empty", Kind.badRequest⟩
def ErrLoanEmptyUpdatedAt : BusinessError := ⟨"updated at cannot be empty", Kind.badRequest⟩
def ErrLoanStillHasOngoingLoan : BusinessError := ⟨"user still has ongoing loan", Kind.unprocessableEntity⟩
def ErrLoanNotFound : BusinessError := ⟨"loan not found", Kind.notFound⟩
def ErrLoanCurrentWeekAlreadyPaid : BusinessError := ⟨"current week is already paid", Kind.unprocessableEntity⟩
def ErrLoanNotExactPaymentAmount : BusinessError := ⟨"loan payment amount does not match billing amount", Kind.unprocessableEntity⟩

def ErrLoanPaymentEmptyID : BusinessError := ⟨"loan payment id cannot be empty", Kind.badRequest⟩
def ErrLoanPaymentEmptyLoanID : BusinessError := ⟨"loan payment loan id cannot be empty", Kind.badRequest⟩
def ErrLoanPaymentInvalidAmount : BusinessError := ⟨"loan payment amount must be greater than zero", Kind.badRequest⟩
def ErrLoanPaymentEmptyCreatedAt : BusinessError := ⟨"created at cannot be empty", Kind.badRequest⟩
def ErrLoanPaymentEmptyUpdatedAt : BusinessError := ⟨"updated at cannot be empty", Kind.badRequest⟩

/-! ## Time model -/

def nsPerDay : ℤ := 86400000000000
def nsPerWeek : ℤ := 604800000000000

/-- Nanoseconds-since-epoch encoding of the zero `time.Time`
(Jan 1, year 1, 00:00:00 UTC): 62135596800 seconds before the epoch. -/
def goZeroTime : ℤ := -62135596800000000000

/-- The check `time.Time.IsZero`. -/
def timeIsZero (t : ℤ) : Bool := t == goZeroTime

/-- `time.Time.Sub`, with the documented saturation at the `Duration`
bounds. -/
def goSub (a b : ℤ) : ℤ := max (-9223372036854775808) (min 9223372036854775807 (a - b))

/-- Floored day number of a time: the civil UTC date it falls on. -/
def dayNumber (t : ℤ) : ℤ := t / nsPerDay

/-- Go `Weekday` of a time in UTC (Sunday = 0): day 0 (Jan 1 1970) was a
Thursday. -/
def goWeekday (t : ℤ) : ℤ := (dayNumber t + 4) % 7

/-! ## UUIDs -/

abbrev UUID := ℕ

def uuidNil : UUID := 0

/-! ## Loan entity (`internal/entity/loan.go`) -/

def delinquencyThresholdWeeks : ℤ := 2

/-- Fixed interest rate: `decimal.NewFromFloat(0.1)`.  `NewFromFloat`
yields the shortest decimal that round-trips through the float, which for
the literal `0.1` is exactly one tenth. -/
def interestRate : ℚ := 1 / 10

/-- Go `entity.LoanStatus` is an `int`; only `0` and `1` are valid. -/
abbrev LoanStatus := ℤ

def LoanStatusOngoing : LoanStatus := 0

def LoanStatusPaid : LoanStatus := 1

/-- The method `LoanStatus.IsValid`. -/
def LoanStatus.IsValid (s : LoanStatus) : Bool := s == LoanStatusOngoing || s == LoanStatusPaid

/-- The struct `entity.Loan`. -/
structure Loan where
  ID : UUID
  UserID : UUID
  Amount : ℚ
  PaymentDurationWeeks : ℤ
  PaymentAmount : ℚ
  Status : LoanStatus
  CreatedAt : ℤ
  UpdatedAt : ℤ
deriving DecidableEq, Repr

/-- The method `(*Loan).validate`: first failing check, in source order. -/
def Loan.validate (l : Loan) : Option BusinessError :=
  if l.ID = uuidNil then some ErrLoanEmptyID
  else if l.UserID = uuidNil then some ErrLoanEmptyUserID
  else if l.Amount ≤ 0 then some ErrLoanInvalidAmount
  else if l.PaymentDurationWeeks ≤ 0 then some ErrLoanInvalidPaymentDurationWeeks
  else if l.PaymentAmount ≤ 0 then some ErrLoanInvalidPaymentAmount
  else if ¬ l.Status.IsValid then some ErrLoanInvalidStatus
  else if timeIsZero l.CreatedAt then some ErrLoanEmptyCreatedAt
  else if timeIsZero l.UpdatedAt then some ErrLoanEmptyUpdatedAt
  else none

/-- The function `entity.CreateLoan`.  The freshly generated id (`uuid.NewV7`)
and the creation instant (`time.Now().UTC()`) are explicit parameters. -/
def CreateLoan (userID : UUID) (amount : ℚ) (paymentDurationWeeks : ℤ)
    (loanID : UUID) (now : ℤ) : Except BusinessError Loan :=
  let loan : Loan :=
    { ID := loanID
      UserID := userID
      Amount := amount
      PaymentDurationWeeks := paymentDurationWeeks
      PaymentAmount := amount + (roundAway (amount * interestRate) : ℚ)
      Status := LoanStatusOngoing
      CreatedAt := now
      UpdatedAt := now }
  match loan.validate with
  | some e => .error e
  | none => .ok loan

/-- The method `(*Loan).ValidateLatestLoan`; both the receiver and the
argument are nilable pointers. -/
def ValidateLatestLoan (l latestLoan : Option Loan) : Option BusinessError :=
  match l, latestLoan with
  | some a, some b =>
      if a.UserID = b.UserID ∧ b.Status = LoanStatusOngoing
      then some ErrLoanStillHasOngoingLoan else none
  | _, _ => none

/-- The method `(*Loan).OutstandingAmount`. -/
def OutstandingAmount : Option Loan → ℚ → ℚ
  | none, _ => 0
  | some L, paidAmount =>
      if L.PaymentAmount - paidAmount < 0 then 0 else L.PaymentAmount - paidAmount

/-- Monday 00:00 UTC of the calendar week containing the creation
timestamp: the method body computes `createdAt.Weekday() - 1` shifted into
`0..6` (days since Monday), rewinds that many days with `AddDate`, and
truncates to midnight with `time.Date`. -/
def beginningOfWeek (L : Loan) : ℤ :=
  (dayNumber L.CreatedAt - (goWeekday L.CreatedAt - 1 + 7) % 7) * nsPerDay

/-- The method `(*Loan).currentWeek`: elapsed time from the Monday anchor,
in hours, divided by `24 * 7` and converted to `int32` (truncation toward
zero; the saturated elapsed duration keeps the value well inside `int32`
range). -/
def currentWeek : Option Loan → ℤ → ℤ
  | none, _ => 0
  | some L, now => truncQ ((goSub now (beginningOfWeek L) : ℚ) / (nsPerWeek : ℚ))

/-- The method `(*Loan).weeklyPaymentAmount`:
`PaymentAmount.Div(NewFromInt32(PaymentDurationWeeks)).RoundDown(0)`. -/
def weeklyPaymentAmount : Option Loan → ℚ
  | none => 0
  | some L => (truncQ (divRound16 (L.PaymentAmount / (L.PaymentDurationWeeks : ℚ))) : ℚ)

/-- The method `(*Loan).CurrentBillAmount`. -/
def CurrentBillAmount : Option Loan → ℤ → ℚ → ℚ
  | none, _, _ => 0
  | some L, now, paidAmount =>
      if (if currentWeek (some L) now < L.PaymentDurationWeeks
          then weeklyPaymentAmount (some L) * ((currentWeek (some L) now : ℤ) : ℚ)
          else L.PaymentAmount) - paidAmount < 0
      then 0
      else (if currentWeek (some L) now < L.PaymentDurationWeeks
          then weeklyPaymentAmount (some L) * ((currentWeek (some L) now : ℤ) : ℚ)
          else L.PaymentAmount) - paidAmount

/-- The method `(*Loan).IsDelinquent`.  `decimal.Div` panics when the
divisor `weeklyPaymentAmount` is zero; the panic is modelled as `none`.
`Round(0).IntPart()` is the rounded ratio half away from zero (for the
states considered in the theorems below the ratio is far inside `int64`
range, so `IntPart` is exact). -/
def IsDelinquent : Option Loan → ℤ → ℚ → Option Bool
  | none, _, _ => some false
  | some L, now, paidAmount =>
      if L.Status = LoanStatusPaid ∨ L.PaymentAmount = paidAmount then some false
      else if weeklyPaymentAmount (some L) = 0 then none
      else
        some (decide (delinquencyThresholdWeeks <
          roundHalfAway (divRound16 (CurrentBillAmount (some L) now paidAmount /
            weeklyPaymentAmount (some L)))))

/-! ## LoanPayment entity (`internal/entity/loan_payment.go`) -/

/-- The struct `entity.LoanPayment`. -/
structure LoanPayment where
  ID : UUID
  LoanID : UUID
  Amount : ℚ
  CreatedAt : ℤ
  UpdatedAt : ℤ
deriving DecidableEq, Repr

/-- The method `(*LoanPayment).validate`. -/
def LoanPayment.validate (p : LoanPayment) : Option BusinessError :=
  if p.ID = uuidNil then some ErrLoanPaymentEmptyID
  else if p.LoanID = uuidNil then some ErrLoanPaymentEmptyLoanID
  else if p.Amount ≤ 0 then some ErrLoanPaymentInvalidAmount
  else if timeIsZero p.CreatedAt then some ErrLoanPaymentEmptyCreatedAt
  else if timeIsZero p.UpdatedAt then some ErrLoanPaymentEmptyUpdatedAt
  else none

/-- The function `entity.CreateLoanPayment`; the generated id and the
clock reading are explicit parameters. -/
def CreateLoanPayment (loanID : UUID) (amount : ℚ) (paymentID : UUID) (now : ℤ) :
    Except BusinessError LoanPayment :=
  let payment : LoanPayment :=
    { ID := paymentID, LoanID := loanID, Amount := amount, CreatedAt := now, UpdatedAt := now }
  match payment.validate with
  | some e => .error e
  | none => .ok payment

/-- The method `(*Loan).MakePayment`.  The result pairs the Go return
values `(loanPayment, shouldUpdateLoan)` (or the error) with the
post-state of the receiver, which the method mutates only when the
payment completes the total.  `paymentID`/`paymentNow` feed
`CreateLoanPayment`; `updateNow` is the second `time.Now()` used to
refresh `UpdatedAt`. -/
def MakePayment : Option Loan → ℤ → ℚ → ℚ → UUID → ℤ → ℤ →
    Except BusinessError (LoanPayment × Bool) × Option Loan
  | none, _, _, _, _, _, _ => (.error ErrLoanNotFound, none)
  | some L, now, paidAmount, paymentAmount, paymentID, paymentNow, updateNow =>
      if CurrentBillAmount (some L) now paidAmount = 0 then
        (.error ErrLoanCurrentWeekAlreadyPaid, some L)
      else if CurrentBillAmount (some L) now paidAmount ≠ paymentAmount then
        (.error ErrLoanNotExactPaymentAmount, some L)
      else
        match CreateLoanPayment L.ID paymentAmount paymentID paymentNow with
        | .error e => (.error e, some L)
        | .ok payment =>
            if paidAmount + paymentAmount = L.PaymentAmount then
              (.ok (payment, true), some { L with Status := LoanStatusPaid, UpdatedAt := updateNow })
            else
              (.ok (payment, false), some L)

/-! ## Rounding lemmas -/

/-- Half of the last retained decimal place of `decimal.Div`: the largest
distance between an exact quotient and the value `Div` returns. -/
def halfUlp16 : ℚ := 1 / (2 * 10 ^ 16)

theorem truncQ_intCast (n : ℤ) : truncQ (n : ℚ) = n := by
  unfold truncQ
  split <;> simp

theorem truncQ_of_nonneg {x : ℚ} (h : 0 ≤ x) : truncQ x = ⌊x⌋ := by
  unfold truncQ
  exact if_pos h

theorem truncQ_nonneg {x : ℚ} (h : 0 ≤ x) : 0 ≤ truncQ x := by
  rw [truncQ_of_nonneg h]
  exact Int.floor_nonneg.mpr h

theorem truncQ_le {x : ℚ} (h : 0 ≤ x) : (truncQ x : ℚ) ≤ x := by
  rw [truncQ_of_nonneg h]
  exact Int.floor_le x

theorem truncQ_mono {x y : ℚ} (h : x ≤ y) : truncQ x ≤ truncQ y := by
  unfold truncQ
  by_cases hx : 0 ≤ x
  · rw [if_pos hx, if_pos (le_trans hx h)]
    exact Int.floor_mono h
  · rw [if_neg hx]
    by_cases hy : 0 ≤ y
    · rw [if_pos hy]
      calc ⌈x⌉ ≤ ⌈(0 : ℚ)⌉ := Int.ceil_mono (le_of_not_le hx)
        _ = 0 := by simp
        _ ≤ ⌊y⌋ := Int.floor_nonneg.mpr hy
    · rw [if_neg hy]
      exact Int.ceil_mono h

theorem truncQ_eq_zero_of_neg_window {x : ℚ} (h1 : -1 < x) (h2 : x ≤ 0) : truncQ x = 0 := by
  unfold truncQ
  by_cases hx : 0 ≤ x
  · rw [if_pos hx]
    have : x = 0 := le_antisymm h2 hx
    simp [this]
  · rw [if_neg hx]
    rw [Int.ceil_eq_iff] <;> simp_all

theorem one_le_truncQ {x : ℚ} (h : 1 ≤ x) : 1 ≤ truncQ x := by
  rw [truncQ_of_nonneg (le_trans zero_le_one h)]
  exact_mod_cast Int.le_floor.mpr (by exact_mod_cast h)

theorem roundAway_pos {x : ℚ} (h : 0 < x) : 1 ≤ roundAway x := by
  unfold roundAway
  rw [if_pos (le_of_lt h)]
  exact_mod_cast Int.le_ceil_iff.mpr (by push_cast; linarith)

theorem roundHalfAway_intCast (n : ℤ) : roundHalfAway (n : ℚ) = n := by
  unfold roundHalfAway
  split
  · rw [Int.floor_eq_iff] <;> push_cast <;> constructor <;> linarith
  · rw [Int.ceil_eq_iff] <;> push_cast <;> constructor <;> linarith

theorem roundHalfAway_le (x : ℚ) : (roundHalfAway x : ℚ) ≤ x + 1/2 := by
  unfold roundHalfAway
  split
  · exact_mod_cast Int.floor_le (x + 1/2)
  · have h1 : ((⌈x - 1/2⌉ : ℤ) : ℚ) < (x - 1/2) + 1 := Int.ceil_lt_add_one _
    linarith

theorem le_roundHalfAway (x : ℚ) : x - 1/2 ≤ (roundHalfAway x : ℚ) := by
  unfold roundHalfAway
  split
  · have h1 : x + 1/2 < ⌊x + 1/2⌋ + 1 := Int.lt_floor_add_one (x + 1/2)
    linarith
  · exact Int.le_ceil (x - 1/2)

theorem roundHalfAway_mono {x y : ℚ} (h : x ≤ y) : roundHalfAway x ≤ roundHalfAway y := by
  unfold roundHalfAway
  by_cases hx : 0 ≤ x
  · rw [if_pos hx, if_pos (le_trans hx h)]
    exact Int.floor_mono (by linarith)
  · rw [if_neg hx]
    by_cases hy : 0 ≤ y
    · rw [if_pos hy]
      have h1 : ⌈x - 1/2⌉ ≤ 0 := Int.ceil_le.mpr (by push_cast; linarith [le_of_not_le hx])
      have h2 : (0 : ℤ) ≤ ⌊y + 1/2⌋ := Int.le_floor.mpr (by push_cast; linarith)
      omega
    · rw [if_neg hy]
      exact Int.ceil_mono (by linarith)

theorem divRound16_le (x : ℚ) : divRound16 x ≤ x + halfUlp16 := by
  unfold divRound16 divPrecisionPow halfUlp16
  rw [div_le_iff (by norm_num)]
  have := roundHalfAway_le (x * ((10 : ℤ) ^ 16 : ℤ))
  push_cast at this ⊢
  linarith

theorem le_divRound16 (x : ℚ) : x - halfUlp16 ≤ divRound16 x := by
  unfold divRound16 divPrecisionPow halfUlp16
  rw [le_div_iff (by norm_num)]
  have := le_roundHalfAway (x * ((10 : ℤ) ^ 16 : ℤ))
  push_cast at this ⊢
  linarith

theorem divRound16_mono {x y : ℚ} (h : x ≤ y) : divRound16 x ≤ divRound16 y := by
  unfold divRound16
  have : roundHalfAway (x * divPrecisionPow) ≤ roundHalfAway (y * divPrecisionPow) := by
    apply roundHalfAway_mono
    have hp : (0 : ℚ) < (divPrecisionPow : ℚ) := by unfold divPrecisionPow; norm_num
    exact mul_le_mul_of_nonneg_right h (le_of_lt hp)
  apply div_le_div_of_le_of_nonneg _ (by unfold divPrecisionPow; norm_num)
  exact_mod_cast this

theorem divRound16_exact {x : ℚ} {m : ℤ} (h : x * (divPrecisionPow : ℚ) = (m : ℚ)) :
    divRound16 x = x := by
  unfold divRound16
  rw [h, roundHalfAway_intCast, ← h]
  rw [mul_div_assoc, div_self (by unfold divPrecisionPow; norm_num), mul_one]

theorem divRound16_intCast (n : ℤ) : divRound16 (n : ℚ) = n := by
  apply divRound16_exact (m := n * divPrecisionPow)
  push_cast
  ring

theorem divRound16_nonneg {x : ℚ} (h : 0 ≤ x) : 0 ≤ divRound16 x := by
  have h0 : divRound16 (0 : ℚ) = 0 := by
    simpa using divRound16_intCast 0
  have := divRound16_mono h
  rw [h0] at this
  exact this

/-- Truncating the 16-place quotient gives the exact floor whenever the
exact quotient is an integer or lies more than half an ulp below its
ceiling. -/
theorem truncQ_divRound16_eq_floor {q : ℚ} (hq : 0 ≤ q)
    (h : (⌈q⌉ : ℚ) = q ∨ halfUlp16 < (⌈q⌉ : ℚ) - q) :
    truncQ (divRound16 q) = ⌊q⌋ := by
  rcases h with h | h
  · have hex : divRound16 q = q := by
      apply divRound16_exact (m := ⌈q⌉ * divPrecisionPow)
      push_cast
      rw [h]
    rw [hex]
    exact truncQ_of_nonneg hq
  · have hlow : (⌊q⌋ : ℚ) ≤ divRound16 q := by
      have h1 : divRound16 ((⌊q⌋ : ℤ) : ℚ) = ((⌊q⌋ : ℤ) : ℚ) := divRound16_intCast _
      have h2 := divRound16_mono (Int.floor_le q)
      rw [h1] at h2
      exact h2
    have hhigh : divRound16 q < (⌈q⌉ : ℚ) := by
      have := divRound16_le q
      linarith
    have hnn : (0 : ℚ) ≤ divRound16 q :=
      le_trans (by exact_mod_cast Int.floor_nonneg.mpr hq) hlow
    rw [truncQ_of_nonneg hnn]
    apply Int.floor_eq_iff.mpr
    refine ⟨hlow, ?_⟩
    have hcf : (⌈q⌉ : ℤ) ≤ ⌊q⌋ + 1 := Int.ceil_le_floor_add_one q
    have hcfq : ((⌈q⌉ : ℤ) : ℚ) ≤ ((⌊q⌋ : ℤ) : ℚ) + 1 := by exact_mod_cast hcf
    push_cast at hcfq ⊢
    linarith

/-- Rounding the 16-place quotient half away from zero gives the
half-away rounding of the exact nonnegative quotient whenever that
quotient lies more than half an ulp below the nearest half-integer
boundary above it. -/
theorem roundHalfAway_divRound16 {r : ℚ} (hr : 0 ≤ r)
    (h : halfUlp16 < (⌊r + 1/2⌋ : ℚ) + 1/2 - r) :
    roundHalfAway (divRound16 r) = ⌊r + 1/2⌋ := by
  set n : ℤ := ⌊r + 1/2⌋ with hn
  have hn0 : 0 ≤ n := Int.floor_nonneg.mpr (by linarith)
  have hnl : (n : ℚ) ≤ r + 1/2 := Int.floor_le _
  have hv1 : (n : ℚ) - 1/2 ≤ divRound16 r := by
    by_cases hc : (n : ℚ) - 1/2 ≤ 0
    · exact le_trans hc (divRound16_nonneg hr)
    · have hhalf : divRound16 ((n : ℚ) - 1/2) = (n : ℚ) - 1/2 := by
        apply divRound16_exact (m := n * 10 ^ 16 - 5 * 10 ^ 15)
        unfold divPrecisionPow
        push_cast
        ring
      have := divRound16_mono (show (n : ℚ) - 1/2 ≤ r by linarith)
      rw [hhalf] at this
      exact this
  have hv2 : divRound16 r < (n : ℚ) + 1/2 := by
    have := divRound16_le r
    linarith
  have hvnn : 0 ≤ divRound16 r := divRound16_nonneg hr
  unfold roundHalfAway
  rw [if_pos hvnn]
  apply Int.floor_eq_iff.mpr
  constructor
  · push_cast
    linarith
  · push_cast
    linarith

/-- Weekly installments of a positive-total loan with an `int32` duration
never overshoot the total before the final week. -/
theorem weekly_mul_le_total {t : ℚ} {d : ℤ} (ht : 0 < t) (hd1 : 1 ≤ d)
    (hd2 : d ≤ 2147483647) {k : ℤ} (hk : k ≤ d - 1) :
    (truncQ (divRound16 (t / (d : ℚ))) : ℚ) * (k : ℚ) ≤ t := by
  have hdq : (0 : ℚ) < (d : ℚ) := by exact_mod_cast hd1
  have hq0 : (0 : ℚ) ≤ t / (d : ℚ)  := le_of_lt (div_pos ht hdq)
  set wk : ℤ := truncQ (divRound16 (t / (d : ℚ))) with hwk
  have hwk0 : 0 ≤ wk := truncQ_nonneg (divRound16_nonneg hq0)
  by_cases hk0 : k ≤ 0
  · have : (wk : ℚ) * (k : ℚ) ≤ 0 := by
      apply mul_nonpos_of_nonneg_of_nonpos
      · exact_mod_cast hwk0
      · exact_mod_cast hk0
    linarith
  · push_neg at hk0
    by_cases hwk1 : wk = 0
    · rw [hwk1]
      push_cast
      linarith
    have hwk1' : 1 ≤ wk := by omega
    have hle : (wk : ℚ) ≤ t / (d : ℚ) + halfUlp16 := by
      calc (wk : ℚ) ≤ divRound16 (t / (d : ℚ)) := truncQ_le (divRound16_nonneg hq0)
        _ ≤ t / (d : ℚ) + halfUlp16 := divRound16_le _
    have hge : 1 - halfUlp16 ≤ t / (d : ℚ) := by
      have : (1 : ℚ) ≤ (wk : ℚ) := by exact_mod_cast hwk1'
      linarith
    have heps : halfUlp16 * (d : ℚ) ≤ 1 := by
      unfold halfUlp16
      rw [div_mul_eq_mul_div, div_le_one (by norm_num)]
      have : (d : ℚ) ≤ 2147483647 := by exact_mod_cast hd2
      linarith
    have hkd : (k : ℚ) ≤ (d : ℚ) - 1 := by
      have : ((k : ℤ) : ℚ) ≤ ((d - 1 : ℤ) : ℚ) := by exact_mod_cast hk
      push_cast at this
      linarith
    have hkq : (0 : ℚ) < (k : ℚ) := by exact_mod_cast hk0
    have step1 : (wk : ℚ) * (k : ℚ) ≤ (wk : ℚ) * ((d : ℚ) - 1) := by
      apply mul_le_mul_of_nonneg_left hkd
      exact_mod_cast hwk0
    have step2 : (wk : ℚ) * ((d : ℚ) - 1) ≤ (t / (d : ℚ) + halfUlp16) * ((d : ℚ) - 1) := by
      apply mul_le_mul_of_nonneg_right hle
      linarith
    have htq : t / (d : ℚ) * (d : ℚ) = t := div_mul_cancel₀ t (ne_of_gt hdq)
    have hup : (0 : ℚ) < halfUlp16 := by unfold halfUlp16; norm_num
    have step3 : (t / (d : ℚ) + halfUlp16) * ((d : ℚ) - 1) ≤ t := by
      have expand : (t / (d : ℚ) + halfUlp16) * ((d : ℚ) - 1)
          = t - t / (d : ℚ) + halfUlp16 * (d : ℚ) - halfUlp16 := by
        rw [mul_sub, add_mul, htq]
        ring
      rw [expand]
      linarith
    linarith

/-! ## Time and week lemmas -/

theorem goSub_mono {a a' b : ℤ} (h : a ≤ a') : goSub a b ≤ goSub a' b := by
  unfold goSub
  omega

theorem goSub_nonneg {a b : ℤ} (h : b ≤ a) : 0 ≤ goSub a b := by
  unfold goSub
  omega

theorem goSub_eq {a b : ℤ} (h1 : -9223372036854775808 ≤ a - b)
    (h2 : a - b ≤ 9223372036854775807) : goSub a b = a - b := by
  unfold goSub
  omega

theorem beginningOfWeek_le (L : Loan) : beginningOfWeek L ≤ L.CreatedAt := by
  unfold beginningOfWeek goWeekday dayNumber nsPerDay
  omega

theorem lt_beginningOfWeek_add_week (L : Loan) :
    L.CreatedAt < beginningOfWeek L + nsPerWeek := by
  unfold beginningOfWeek goWeekday dayNumber nsPerWeek nsPerDay
  omega

theorem beginningOfWeek_midnight (L : Loan) : beginningOfWeek L % nsPerDay = 0 := by
  unfold beginningOfWeek goWeekday dayNumber nsPerDay
  omega

theorem beginningOfWeek_monday (L : Loan) : goWeekday (beginningOfWeek L) = 1 := by
  unfold beginningOfWeek goWeekday dayNumber nsPerDay
  omega

theorem floor_intCast_div_posInt (a b : ℤ) (hb : 0 < b) :
    ⌊(a : ℚ) / (b : ℚ)⌋ = a / b := by
  obtain ⟨n, rfl⟩ : ∃ n : ℕ, b = (n : ℤ) := ⟨b.toNat, (Int.toNat_of_nonneg (le_of_lt hb)).symm⟩
  rw [show ((n : ℤ) : ℚ) = ((n : ℕ) : ℚ) by push_cast; ring]
  exact Rat.floor_intCast_div_natCast a n

theorem nsPerWeek_pos : (0 : ℚ) < (nsPerWeek : ℚ) := by
  unfold nsPerWeek
  norm_num

theorem currentWeek_mono (L : Loan) {n1 n2 : ℤ} (h : n1 ≤ n2) :
    currentWeek (some L) n1 ≤ currentWeek (some L) n2 := by
  simp only [currentWeek]
  apply truncQ_mono
  have hg : (goSub n1 (beginningOfWeek L) : ℚ) ≤ (goSub n2 (beginningOfWeek L) : ℚ) := by
    exact_mod_cast goSub_mono h
  exact div_le_div_of_le_of_nonneg hg (le_of_lt nsPerWeek_pos)

theorem currentWeek_eq_ediv (L : Loan) {now : ℤ} (h : beginningOfWeek L ≤ now) :
    currentWeek (some L) now = goSub now (beginningOfWeek L) / nsPerWeek := by
  simp only [currentWeek]
  have hnn : (0 : ℚ) ≤ (goSub now (beginningOfWeek L) : ℚ) / (nsPerWeek : ℚ) := by
    apply div_nonneg _ (le_of_lt nsPerWeek_pos)
    exact_mod_cast goSub_nonneg h
  rw [truncQ_of_nonneg hnn]
  exact floor_intCast_div_posInt _ _ (by unfold nsPerWeek; norm_num)

theorem currentWeek_nonneg (L : Loan) {now : ℤ} (h : beginningOfWeek L ≤ now) :
    0 ≤ currentWeek (some L) now := by
  simp only [currentWeek]
  apply truncQ_nonneg
  apply div_nonneg _ (le_of_lt nsPerWeek_pos)
  exact_mod_cast goSub_nonneg h

/-! ## Bill lemmas -/

theorem weekly_nonneg (L : Loan) (ht : 0 ≤ L.PaymentAmount) (hd : 0 < L.PaymentDurationWeeks) :
    0 ≤ weeklyPaymentAmount (some L) := by
  simp only [weeklyPaymentAmount]
  have hq : (0 : ℚ) ≤ L.PaymentAmount / (L.PaymentDurationWeeks : ℚ) := by
    apply div_nonneg ht
    exact_mod_cast le_of_lt hd
  exact_mod_cast truncQ_nonneg (divRound16_nonneg hq)

theorem obligation_le_total (L : Loan) (ht : 0 < L.PaymentAmount)
    (hd1 : 1 ≤ L.PaymentDurationWeeks) (hd2 : L.PaymentDurationWeeks ≤ 2147483647)
    {w : ℤ} (hw : w < L.PaymentDurationWeeks) :
    weeklyPaymentAmount (some L) * (w : ℚ) ≤ L.PaymentAmount := by
  simp only [weeklyPaymentAmount]
  exact weekly_mul_le_total ht hd1 hd2 (by omega)

theorem ite_clamp_nonneg (x : ℚ) : 0 ≤ (if x < 0 then 0 else x) := by
  split <;> linarith

theorem ite_clamp_mono {x y : ℚ} (h : x ≤ y) :
    (if x < 0 then 0 else x) ≤ (if y < 0 then 0 else y) := by
  split <;> split <;> linarith

theorem ite_clamp_eq_max (x : ℚ) : (if x < 0 then 0 else x) = max x 0 := by
  rcases le_or_lt 0 x with h | h
  · rw [if_neg (by linarith), max_eq_left h]
  · rw [if_pos h, max_eq_right (by linarith)]

/-- The local variable `paymentObligation` of `CurrentBillAmount`. -/
def paymentObligation (L : Loan) (now : ℤ) : ℚ :=
  if currentWeek (some L) now < L.PaymentDurationWeeks
  then weeklyPaymentAmount (some L) * ((currentWeek (some L) now : ℤ) : ℚ)
  else L.PaymentAmount

theorem currentBill_eq (L : Loan) (now : ℤ) (paid : ℚ) :
    CurrentBillAmount (some L) now paid =
      if paymentObligation L now - paid < 0 then 0 else paymentObligation L now - paid := by
  simp only [CurrentBillAmount, paymentObligation]

theorem bill_nonneg (l : Option Loan) (now : ℤ) (paid : ℚ) :
    0 ≤ CurrentBillAmount l now paid := by
  match l with
  | none => exact le_refl 0
  | some L =>
      rw [currentBill_eq]
      exact ite_clamp_nonneg _

theorem paymentObligation_le_total (L : Loan) (ht : 0 < L.PaymentAmount)
    (hd1 : 1 ≤ L.PaymentDurationWeeks) (hd2 : L.PaymentDurationWeeks ≤ 2147483647)
    (now : ℤ) : paymentObligation L now ≤ L.PaymentAmount := by
  unfold paymentObligation
  split
  · exact obligation_le_total L ht hd1 hd2 (by assumption)
  · exact le_refl _

theorem bill_le_outstanding (L : Loan) (ht : 0 < L.PaymentAmount)
    (hd1 : 1 ≤ L.PaymentDurationWeeks) (hd2 : L.PaymentDurationWeeks ≤ 2147483647)
    (now : ℤ) (paid : ℚ) :
    CurrentBillAmount (some L) now paid ≤ max (L.PaymentAmount - paid) 0 := by
  rw [currentBill_eq, ite_clamp_eq_max]
  have := paymentObligation_le_total L ht hd1 hd2 now
  rcases le_or_lt (paymentObligation L now) paid with h | h
  · rw [max_eq_right (by linarith)]
    exact le_max_right _ _
  · rw [max_eq_left (by linarith)]
    have h2 : L.PaymentAmount - paid ≤ max (L.PaymentAmount - paid) 0 := le_max_left _ _
    linarith

theorem bill_zero_of_total_le_paid (L : Loan) (ht : 0 < L.PaymentAmount)
    (hd1 : 1 ≤ L.PaymentDurationWeeks) (hd2 : L.PaymentDurationWeeks ≤ 2147483647)
    (now : ℤ) {paid : ℚ} (hp : L.PaymentAmount ≤ paid) :
    CurrentBillAmount (some L) now paid = 0 := by
  have h1 := bill_le_outstanding L ht hd1 hd2 now paid
  have h2 := bill_nonneg (some L) now paid
  have h3 : max (L.PaymentAmount - paid) 0 = 0 := max_eq_right (by linarith)
  rw [h3] at h1
  linarith

theorem paymentObligation_mono (L : Loan) (ht : 0 < L.PaymentAmount)
    (hd1 : 1 ≤ L.PaymentDurationWeeks) (hd2 : L.PaymentDurationWeeks ≤ 2147483647)
    {n1 n2 : ℤ} (h : n1 ≤ n2) :
    paymentObligation L n1 ≤ paymentObligation L n2 := by
  unfold paymentObligation
  have hw : currentWeek (some L) n1 ≤ currentWeek (some L) n2 := currentWeek_mono L h
  have hwknn : 0 ≤ weeklyPaymentAmount (some L) := weekly_nonneg L (le_of_lt ht) (by omega)
  split <;> split
  · apply mul_le_mul_of_nonneg_left _ hwknn
    exact_mod_cast hw
  · exact obligation_le_total L ht hd1 hd2 (by assumption)
  · omega
  · exact le_refl _

theorem bill_mono (L : Loan) (ht : 0 < L.PaymentAmount)
    (hd1 : 1 ≤ L.PaymentDurationWeeks) (hd2 : L.PaymentDurationWeeks ≤ 2147483647)
    {n1 n2 : ℤ} (h : n1 ≤ n2) (paid : ℚ) :
    CurrentBillAmount (some L) n1 paid ≤ CurrentBillAmount (some L) n2 paid := by
  rw [currentBill_eq, currentBill_eq]
  apply ite_clamp_mono
  have := paymentObligation_mono L ht hd1 hd2 h
  linarith

theorem bill_at_term (L : Loan) {now : ℤ}
    (h : L.PaymentDurationWeeks ≤ currentWeek (some L) now) (paid : ℚ) :
    CurrentBillAmount (some L) now paid = max (L.PaymentAmount - paid) 0 := by
  rw [currentBill_eq, ite_clamp_eq_max]
  unfold paymentObligation
  rw [if_neg (not_lt.mpr h)]

/-! ## Service layer (`internal/service`) -/

/-- A Go `error` value as seen by the service layer: either a
`*businesserror.BusinessError` (recognized by `errors.As`) or any other,
opaque error (storage failures, driver errors, ...). -/
inductive GoError where
  | business (e : BusinessError)
  | raw (code : ℕ)
deriving DecidableEq, Repr

/-- The variable `service.UnexpectedError`. -/
def UnexpectedError : BusinessError := ⟨"unexpected error, please try again", Kind.internal⟩

/-- The function `service.ensureBusinessError`. -/
def ensureBusinessError : Option GoError → Option GoError
  | none => none
  | some (.business e) => some (.business e)
  | some (.raw _) => some (.business UnexpectedError)

/-- The service DTO `service.LoanDetail`: a loan plus its computed
outstanding amount, current bill and delinquency flag.  The delinquency
flag keeps the `Option` from `IsDelinquent` (a `none` is the modelled
panic, not an error return). -/
structure LoanDetail where
  loan : Option Loan
  outstandingAmount : ℚ
  currentBillAmount : ℚ
  isDelinquent : Option Bool
deriving DecidableEq, Repr

/-- The method `(*Impl).CreateLoan` of `internal/service/create_loan.go`
with the repository outcome passed as an oracle: `repoErr` is what
`repo.CreateLoan` returns (its insertion failure or the
`ValidateLatestLoan` guard error raised inside the transaction). -/
def svcCreateLoan (userID : UUID) (amount : ℚ) (paymentDurationWeeks : ℤ)
    (loanID : UUID) (now : ℤ) (repoErr : Option GoError) :
    Option Loan × Option GoError :=
  match CreateLoan userID amount paymentDurationWeeks loanID now with
  | .error e => (none, ensureBusinessError (some (.business e)))
  | .ok loan =>
      match repoErr with
      | some err => (none, ensureBusinessError (some err))
      | none => (some loan, none)

/-- The method `(*Impl).GetCurrentLoan` with the two repository reads
passed as oracles (`GetLatestLoan` and `GetLoanPaidAmount`). -/
def svcGetCurrentLoan (latestLoan : Option Loan) (latestErr : Option GoError)
    (paidAmount : ℚ) (paidErr : Option GoError) (now : ℤ) :
    Option LoanDetail × Option GoError :=
  match latestErr with
  | some err => (none, ensureBusinessError (some err))
  | none =>
      match latestLoan with
      | none => (none, some (.business ErrLoanNotFound))
      | some L =>
          if L.Status ≠ LoanStatusOngoing then (none, some (.business ErrLoanNotFound))
          else
            match paidErr with
            | some err => (none, ensureBusinessError (some err))
            | none =>
                (some ⟨some L, OutstandingAmount (some L) paidAmount,
                  CurrentBillAmount (some L) now paidAmount,
                  IsDelinquent (some L) now paidAmount⟩, none)

/-- The method `(*Impl).MakePayment` with the transactional repository
workflow passed as an oracle: `repoLoan`/`newPaidAmount`/`repoErr` are
what `repo.MakePayment` returns (the error includes any business error the
payment callback raised inside the transaction). -/
def svcMakePayment (repoLoan : Option Loan) (newPaidAmount : ℚ)
    (repoErr : Option GoError) (now : ℤ) :
    Option LoanDetail × Option GoError :=
  match repoErr with
  | some err => (none, ensureBusinessError (some err))
  | none =>
      (some ⟨repoLoan, OutstandingAmount repoLoan newPaidAmount,
        CurrentBillAmount repoLoan now newPaidAmount,
        IsDelinquent repoLoan now newPaidAmount⟩, none)

/-! ## Sequences of payment calls -/

/-- Arguments of one `MakePayment` call against a loan (the wall-clock
reading, the tendered amount and the nondeterministic id/clock inputs). -/
structure PaymentCall where
  now : ℤ
  paymentAmount : ℚ
  paymentID : UUID
  paymentNow : ℤ
  updateNow : ℤ
deriving DecidableEq, Repr

/-- One call of the apply-payment workflow against state
`(loan, cumulative paid, completions so far)`: a successful call adds its
payment to the cumulative paid amount (the repository sums the inserted
payment rows) and counts a completion when the call reported the loan
should be updated; a failed call leaves everything unchanged. -/
def payStep (st : Option Loan × ℚ × ℕ) (c : PaymentCall) : Option Loan × ℚ × ℕ :=
  match MakePayment st.1 c.now st.2.1 c.paymentAmount c.paymentID c.paymentNow c.updateNow with
  | (.ok (_, flag), post) => (post, st.2.1 + c.paymentAmount, st.2.2 + (if flag then 1 else 0))
  | (.error _, post) => (post, st.2.1, st.2.2)

/-- A sequence of payment calls applied in order. -/
def runPayments (l : Option Loan) (paid : ℚ) (calls : List PaymentCall) :
    Option Loan × ℚ × ℕ :=
  List.foldl payStep (l, paid, 0) calls

theorem makePayment_error_frame (L : Loan) (now : ℤ) (paid pay : ℚ) (pid : UUID)
    (pts uts : ℤ) {e : BusinessError} {post : Option Loan}
    (h : MakePayment (some L) now paid pay pid pts uts = (.error e, post)) :
    post = some L := by
  simp only [MakePayment] at h
  split at h
  · exact (Prod.mk.injEq _ _ _ _ ▸ h).2.symm ▸ rfl
  · split at h
    · exact (Prod.mk.injEq _ _ _ _ ▸ h).2.symm ▸ rfl
    · split at h
      · exact (Prod.mk.injEq _ _ _ _ ▸ h).2.symm ▸ rfl
      · split at h <;> simp_all

theorem makePayment_success_cases (L : Loan) (now : ℤ) (paid pay : ℚ) (pid : UUID)
    (pts uts : ℤ) {p : LoanPayment} {flag : Bool} {post : Option Loan}
    (h : MakePayment (some L) now paid pay pid pts uts = (.ok (p, flag), post)) :
    pay = CurrentBillAmount (some L) now paid ∧
    CurrentBillAmount (some L) now paid ≠ 0 ∧
    ((paid + pay = L.PaymentAmount ∧ flag = true ∧
        post = some { L with Status := LoanStatusPaid, UpdatedAt := uts }) ∨
      (paid + pay ≠ L.PaymentAmount ∧ flag = false ∧ post = some L)) := by
  simp only [MakePayment] at h
  split at h
  · simp_all
  · split at h
    · simp_all
    · rename_i h1 h2
      rw [not_ne_iff] at h2
      refine ⟨h2.symm, h1, ?_⟩
      split at h
      · simp_all
      · split at h
        · left
          simp_all
        · right
          simp_all

theorem runPayments_inv (T : ℚ) (D : ℤ) (ht : 0 < T) (hd1 : 1 ≤ D)
    (hd2 : D ≤ 2147483647) :
    ∀ (calls : List PaymentCall) (L : Loan) (paid : ℚ) (k : ℕ),
      L.PaymentAmount = T → L.PaymentDurationWeeks = D →
      paid ≤ T → (L.Status = LoanStatusPaid ↔ paid = T) →
      ∃ L2 paid2 k2, List.foldl payStep (some L, paid, k) calls = (some L2, paid2, k2) ∧
        L2.PaymentAmount = T ∧ L2.PaymentDurationWeeks = D ∧
        paid ≤ paid2 ∧ paid2 ≤ T ∧ (L2.Status = LoanStatusPaid ↔ paid2 = T) ∧
        k2 = k + (if paid ≠ T ∧ paid2 = T then 1 else 0) := by
  intro calls
  induction calls with
  | nil =>
      intro L paid k hT hD hle hiff
      refine ⟨L, paid, k, rfl, hT, hD, le_refl _, hle, hiff, ?_⟩
      rw [if_neg]
      · omega
      · rintro ⟨hne, he⟩
        exact hne he
  | cons c rest ih =>
      intro L paid k hT hD hle hiff
      rw [List.foldl_cons]
      rcases hmp : MakePayment (some L) c.now paid c.paymentAmount c.paymentID
          c.paymentNow c.updateNow with ⟨res, post⟩
      cases res with
      | error e =>
          have hpost : post = some L := makePayment_error_frame _ _ _ _ _ _ _ hmp
          have hstep : payStep (some L, paid, k) c = (some L, paid, k) := by
            simp only [payStep, hmp, hpost]
          rw [hstep]
          exact ih L paid k hT hD hle hiff
      | ok pr =>
          obtain ⟨p, flag⟩ := pr
          have hsc := makePayment_success_cases _ _ _ _ _ _ _ hmp
          obtain ⟨hpay, hbne, hcases⟩ := hsc
          have hb0 : 0 ≤ CurrentBillAmount (some L) c.now paid := bill_nonneg _ _ _
          have hbpos : 0 < CurrentBillAmount (some L) c.now paid :=
            lt_of_le_of_ne hb0 (Ne.symm hbne)
          have hT' : 0 < L.PaymentAmount := hT ▸ ht
          have hd1' : 1 ≤ L.PaymentDurationWeeks := hD ▸ hd1
          have hd2' : L.PaymentDurationWeeks ≤ 2147483647 := hD ▸ hd2
          have hble : CurrentBillAmount (some L) c.now paid ≤ max (L.PaymentAmount - paid) 0 :=
            bill_le_outstanding L hT' hd1' hd2' c.now paid
          have hpaidlt : paid < T := by
            by_contra hcon
            push_neg at hcon
            have hz : CurrentBillAmount (some L) c.now paid = 0 :=
              bill_zero_of_total_le_paid L hT' hd1' hd2' c.now (hT ▸ hcon)
            exact hbne hz
          have hsum_le : paid + c.paymentAmount ≤ T := by
            have hmax : max (L.PaymentAmount - paid) 0 = L.PaymentAmount - paid :=
              max_eq_left (by rw [hT]; linarith)
            rw [hmax, hT] at hble
            rw [hpay]
            linarith
          rcases hcases with ⟨hcomp, hflag, hpost⟩ | ⟨hncomp, hflag, hpost⟩
          · -- the call completes the total: status flips, counter increments
            have hstep : payStep (some L, paid, k) c =
                (some { L with Status := LoanStatusPaid, UpdatedAt := c.updateNow },
                  paid + c.paymentAmount, k + 1) := by
              simp [payStep, hmp, hpost, hflag]
            rw [hstep]
            have hcomp' : paid + c.paymentAmount = T := hT ▸ hcomp
            obtain ⟨L2, paid2, k2, hrun, h1, h2, h3, h4, h5, h6⟩ :=
              ih { L with Status := LoanStatusPaid, UpdatedAt := c.updateNow }
                (paid + c.paymentAmount) (k + 1) hT hD (le_of_eq hcomp')
                (by constructor
                    · intro _
                      exact hcomp'
                    · intro _
                      rfl)
            refine ⟨L2, paid2, k2, hrun, h1, h2, by linarith, h4, h5, ?_⟩
            have hpaid2 : paid2 = T := le_antisymm h4 (hcomp' ▸ h3)
            have hz : (if paid + c.paymentAmount ≠ T ∧ paid2 = T then (1 : ℕ) else 0) = 0 := by
              rw [if_neg]
              rintro ⟨hne, _⟩
              exact hne hcomp'
            have ho : (if paid ≠ T ∧ paid2 = T then (1 : ℕ) else 0) = 1 :=
              if_pos ⟨ne_of_lt hpaidlt, hpaid2⟩
            rw [h6, hz, ho]
          · -- a regular installment: loan unchanged, counter unchanged
            have hstep : payStep (some L, paid, k) c =
                (some L, paid + c.paymentAmount, k) := by
              simp [payStep, hmp, hpost, hflag]
            rw [hstep]
            have hncomp' : paid + c.paymentAmount ≠ T := fun he => hncomp (hT.symm ▸ he)
            obtain ⟨L2, paid2, k2, hrun, h1, h2, h3, h4, h5, h6⟩ :=
              ih L (paid + c.paymentAmount) k hT hD hsum_le
                (by constructor
                    · intro hst
                      exact absurd (hiff.mp hst) (ne_of_lt hpaidlt)
                    · intro he
                      exact absurd he hncomp')
            refine ⟨L2, paid2, k2, hrun, h1, h2, ?_, h4, h5, ?_⟩
            · have : 0 < c.paymentAmount := hpay ▸ hbpos
              linarith
            · rw [h6]
              congr 1
              by_cases hp2 : paid2 = T
              · rw [if_pos ⟨hncomp', hp2⟩, if_pos ⟨ne_of_lt hpaidlt, hp2⟩]
              · rw [if_neg (by tauto), if_neg (by tauto)]

/-! ## Claim theorems -/

theorem ensure_some_classified (err : GoError) {g : GoError}
    (h : ensureBusinessError (some err) = some g) : ∃ b, g = GoError.business b := by
  cases err with
  | business e =>
      simp only [ensureBusinessError] at h
      exact ⟨e, (Option.some.injEq _ _ ▸ h).symm⟩
  | raw c =>
      simp only [ensureBusinessError] at h
      exact ⟨UnexpectedError, (Option.some.injEq _ _ ▸ h).symm⟩

/-- C8: the ongoing-loan guard `ValidateLatestLoan` fails with
`StillHasOngoingLoan` exactly when the latest loan is present, belongs to
the same user as the new loan, and has status Ongoing; in every other
case, and always for a nil latest loan, it succeeds (returns nil). -/
theorem claim_C8_ongoing_guard :
    ∀ (L : Loan) (latest : Option Loan),
      (ValidateLatestLoan (some L) latest = some ErrLoanStillHasOngoingLoan ↔
        ∃ LL, latest = some LL ∧ LL.UserID = L.UserID ∧ LL.Status = LoanStatusOngoing) ∧
      ((¬ ∃ LL, latest = some LL ∧ LL.UserID = L.UserID ∧ LL.Status = LoanStatusOngoing) →
        ValidateLatestLoan (some L) latest = none) ∧
      ValidateLatestLoan (some L) none = none := by
  intro L latest
  refine ⟨?_, ?_, rfl⟩
  · cases latest with
    | none =>
        simp [ValidateLatestLoan]
    | some LL =>
        simp only [ValidateLatestLoan]
        split
        · rename_i hcond
          simp only [Option.some.injEq]
          constructor
          · intro _
            exact ⟨LL, rfl, hcond.1.symm, hcond.2⟩
          · intro _
            trivial
        · rename_i hcond
          constructor
          · intro h
            cases h
          · rintro ⟨LL2, hLL2, hu, hs⟩
            obtain rfl : LL2 = LL := by injection hLL2.symm
            exact absurd ⟨hu.symm, hs⟩ hcond
  · intro hno
    cases latest with
    | none => rfl
    | some LL =>
        simp only [ValidateLatestLoan]
        rw [if_neg]
        rintro ⟨hu, hs⟩
        exact hno ⟨LL, rfl, hu.symm, hs⟩

/-- C8 witness: for a concrete pair of loans of the same user with the
latest Ongoing, the guard fails; with a nil latest loan it succeeds. -/
theorem claim_C8_ongoing_guard_witness :
    ValidateLatestLoan
        (some ⟨1, 7, 100, 10, 110, LoanStatusOngoing, 345600000000000, 345600000000000⟩)
        (some ⟨2, 7, 200, 10, 220, LoanStatusOngoing, 345600000000000, 345600000000000⟩)
      = some ErrLoanStillHasOngoingLoan ∧
    ValidateLatestLoan
        (some ⟨1, 7, 100, 10, 110, LoanStatusOngoing, 345600000000000, 345600000000000⟩)
        none = none := by
  constructor
  · exact (claim_C8_ongoing_guard _ _).1.mpr ⟨_, rfl, rfl, rfl⟩
  · exact (claim_C8_ongoing_guard
      ⟨1, 7, 100, 10, 110, LoanStatusOngoing, 345600000000000, 345600000000000⟩ none).2.2

/-- C9: across the service boundary every returned error carries a
classification kind: `ensureBusinessError` passes a business error
through unchanged, replaces any other error with the single generic
Internal-kind "unexpected error", and maps nil to nil; and each of the
three service operations (`CreateLoan`, `GetCurrentLoan`, `MakePayment`)
only ever returns classified (business) errors, for every outcome of the
entity logic and of the repository. -/
theorem claim_C9_error_classification :
    (∀ e, ensureBusinessError (some (GoError.business e)) = some (GoError.business e)) ∧
    (∀ c, ensureBusinessError (some (GoError.raw c)) = some (GoError.business UnexpectedError)) ∧
    ensureBusinessError none = none ∧
    (∀ userID amount dur loanID now repoErr g,
      (svcCreateLoan userID amount dur loanID now repoErr).2 = some g →
        ∃ b, g = GoError.business b) ∧
    (∀ latestLoan latestErr paidAmount paidErr now g,
      (svcGetCurrentLoan latestLoan latestErr paidAmount paidErr now).2 = some g →
        ∃ b, g = GoError.business b) ∧
    (∀ repoLoan newPaidAmount repoErr now g,
      (svcMakePayment repoLoan newPaidAmount repoErr now).2 = some g →
        ∃ b, g = GoError.business b) := by
  refine ⟨fun e => rfl, fun c => rfl, rfl, ?_, ?_, ?_⟩
  · intro userID amount dur loanID now repoErr g h
    simp only [svcCreateLoan] at h
    split at h
    · exact ensure_some_classified _ (by simpa using h)
    · cases repoErr with
      | none => simp at h
      | some err => exact ensure_some_classified _ (by simpa using h)
  · intro latestLoan latestErr paidAmount paidErr now g h
    simp only [svcGetCurrentLoan] at h
    cases latestErr with
    | some err => exact ensure_some_classified _ (by simpa using h)
    | none =>
        cases latestLoan with
        | none =>
            simp only [Option.some.injEq] at h
            exact ⟨ErrLoanNotFound, h.symm⟩
        | some L =>
            simp only at h
            split at h
            · simp only [Option.some.injEq] at h
              exact ⟨ErrLoanNotFound, h.symm⟩
            · cases paidErr with
              | some err => exact ensure_some_classified _ (by simpa using h)
              | none => simp at h
  · intro repoLoan newPaidAmount repoErr now g h
    simp only [svcMakePayment] at h
    cases repoErr with
    | some err => exact ensure_some_classified _ (by simpa using h)
    | none => simp at h

/-- C9 witness: an entity validation failure in the create-loan workflow
crosses the boundary as a classified business error. -/
theorem claim_C9_error_classification_witness :
    ∃ b, GoError.business ErrLoanEmptyID = GoError.business b :=
  claim_C9_error_classification.2.2.2.1 1 100 10 0 345600000000000
    none (GoError.business ErrLoanEmptyID) rfl

/-- C4: for every creation input accepted by `CreateLoan` (non-empty user
id, principal > 0, duration ≥ 1; the generated id is non-nil and the
clock is non-zero), the created loan has
`totalPaymentAmount = principal + ceil(principal * 0.10)` (interest
rounded up to 0 decimal places) and this is strictly greater than the
principal. -/
theorem claim_C4_total_payment :
    ∀ (userID : UUID) (amount : ℚ) (dur : ℤ) (loanID : UUID) (now : ℤ),
      userID ≠ uuidNil → 0 < amount → 1 ≤ dur → loanID ≠ uuidNil → now ≠ goZeroTime →
      ∃ L, CreateLoan userID amount dur loanID now = .ok L ∧
        L.PaymentAmount = amount + (⌈amount * (1/10 : ℚ)⌉ : ℚ) ∧
        amount < L.PaymentAmount := by
  intro userID amount dur loanID now hu ha hd hid hnz
  have hmulpos : 0 < amount * (1/10 : ℚ) := by positivity
  have hceil : roundAway (amount * interestRate) = ⌈amount * (1/10 : ℚ)⌉ := by
    unfold roundAway interestRate
    rw [if_pos (le_of_lt hmulpos)]
  have hceilpos : 0 < ⌈amount * (1/10 : ℚ)⌉ := Int.ceil_pos.mpr hmulpos
  have hceilposq : (0 : ℚ) < (⌈amount * (1/10 : ℚ)⌉ : ℚ) := by exact_mod_cast hceilpos
  have hts : ¬ (timeIsZero now = true) := by
    simp [timeIsZero, hnz]
  refine ⟨{ ID := loanID, UserID := userID, Amount := amount,
            PaymentDurationWeeks := dur,
            PaymentAmount := amount + (roundAway (amount * interestRate) : ℚ),
            Status := LoanStatusOngoing, CreatedAt := now, UpdatedAt := now }, ?_, ?_, ?_⟩
  · simp only [CreateLoan]
    have hval : Loan.validate { ID := loanID, UserID := userID, Amount := amount,
                                PaymentDurationWeeks := dur,
                                PaymentAmount := amount + (roundAway (amount * interestRate) : ℚ),
                                Status := LoanStatusOngoing, CreatedAt := now,
                                UpdatedAt := now } = none := by
      simp only [Loan.validate]
      rw [if_neg hid, if_neg hu, if_neg (by linarith),
        if_neg (by omega), if_neg (by rw [hceil]; linarith),
        if_neg (by decide), if_neg (by exact hts), if_neg (by exact hts)]
    rw [hval]
  · dsimp only
    rw [hceil]
  · dsimp only
    rw [hceil]
    linarith

/-- C4 witness: principal 5000000 over 50 weeks gives total 5500000,
strictly above the principal. -/
theorem claim_C4_total_payment_witness :
    ∃ L, CreateLoan 7 5000000 50 1 345600000000000 = .ok L ∧
      L.PaymentAmount = 5000000 + (⌈(5000000 : ℚ) * (1/10 : ℚ)⌉ : ℚ) ∧
      (5000000 : ℚ) < L.PaymentAmount :=
  claim_C4_total_payment 7 5000000 50 1 345600000000000
    (by decide) (by norm_num) (by decide) (by decide) (by decide)

/-- C3: for a loan respecting the data-model invariants (positive total,
`int32` duration ≥ 1), `CurrentBillAmount` is, for every fixed
`paidAmount`: non-decreasing in `now`; always ≥ 0 (for every loan and
even a `paidAmount` exceeding the obligation); bounded by the clamped
outstanding amount, which it equals exactly once the loan term has fully
elapsed (saturation); and zero for the absent loan at every input. -/
theorem claim_C3_bill_shape :
    (∀ (L : Loan) (paid : ℚ) (n1 n2 : ℤ),
      0 < L.PaymentAmount → 1 ≤ L.PaymentDurationWeeks →
      L.PaymentDurationWeeks ≤ 2147483647 →
      n1 ≤ n2 →
      CurrentBillAmount (some L) n1 paid ≤ CurrentBillAmount (some L) n2 paid) ∧
    (∀ (l : Option Loan) (now : ℤ) (paid : ℚ), 0 ≤ CurrentBillAmount l now paid) ∧
    (∀ (L : Loan) (now : ℤ) (paid : ℚ),
      0 < L.PaymentAmount → 1 ≤ L.PaymentDurationWeeks →
      L.PaymentDurationWeeks ≤ 2147483647 →
      CurrentBillAmount (some L) now paid ≤ max (L.PaymentAmount - paid) 0 ∧
      (L.PaymentDurationWeeks ≤ currentWeek (some L) now →
        CurrentBillAmount (some L) now paid = max (L.PaymentAmount - paid) 0)) ∧
    (∀ (now : ℤ) (paid : ℚ), CurrentBillAmount none now paid = 0) := by
  refine ⟨?_, ?_, ?_, ?_⟩
  · intro L paid n1 n2 ht hd1 hd2 h
    exact bill_mono L ht hd1 hd2 h paid
  · intro l now paid
    exact bill_nonneg l now paid
  · intro L now paid ht hd1 hd2
    exact ⟨bill_le_outstanding L ht hd1 hd2 now paid, fun h => bill_at_term L h paid⟩
  · intro now paid
    rfl

/-- C3 witness: for a concrete loan (total 110 over 10 weeks, created
Monday Jan 5 1970), the bill a week later bounds the bill at creation,
is nonnegative with an overshooting paid amount, and the nil loan bills
zero. -/
theorem claim_C3_bill_shape_witness :
    CurrentBillAmount
        (some ⟨1, 7, 100, 10, 110, LoanStatusOngoing, 345600000000000, 345600000000000⟩)
        345600000000000 0 ≤
      CurrentBillAmount
        (some ⟨1, 7, 100, 10, 110, LoanStatusOngoing, 345600000000000, 345600000000000⟩)
        950400000000000 0 ∧
    0 ≤ CurrentBillAmount
        (some ⟨1, 7, 100, 10, 110, LoanStatusOngoing, 345600000000000, 345600000000000⟩)
        345600000000000 1000000 ∧
    CurrentBillAmount none 345600000000000 3 = 0 := by
  refine ⟨?_, ?_, ?_⟩
  · exact claim_C3_bill_shape.1 _ 0 345600000000000 950400000000000
      (by norm_num) (by norm_num) (by norm_num) (by norm_num)
  · exact claim_C3_bill_shape.2.1 _ 345600000000000 1000000
  · exact claim_C3_bill_shape.2.2.2 345600000000000 3

/-- C2 (amended): the anchor computed by `currentWeek` is the Monday
00:00 UTC of the calendar week containing the creation timestamp (at or
before the creation time, less than 7 days before it, at a day boundary,
on a Monday); for every `now` at or after the anchor, `currentWeek` is
the whole number of 7×24-hour periods of the (saturated) elapsed time,
floored, and is ≥ 0; it returns 0 for `now` at the anchor or up to
(strictly less than) one week before it; and a loan created on a Sunday
is in week 1 at the very next day (the following Monday 00:00, which is
at most 24 hours after the creation timestamp).  The conversion is a
truncation toward zero, not a clamp: more than a week before the anchor
`currentWeek` is negative (see the counterexample). -/
theorem claim_C2_currentWeek_anchor :
    ∀ (L : Loan),
      (beginningOfWeek L ≤ L.CreatedAt ∧ L.CreatedAt < beginningOfWeek L + nsPerWeek ∧
        beginningOfWeek L % nsPerDay = 0 ∧ goWeekday (beginningOfWeek L) = 1) ∧
      (∀ now : ℤ, beginningOfWeek L ≤ now →
        currentWeek (some L) now = goSub now (beginningOfWeek L) / nsPerWeek ∧
        0 ≤ currentWeek (some L) now) ∧
      (∀ now : ℤ, beginningOfWeek L - nsPerWeek < now → now ≤ beginningOfWeek L →
        currentWeek (some L) now = 0) ∧
      (goWeekday L.CreatedAt = 0 →
        currentWeek (some L) ((dayNumber L.CreatedAt + 1) * nsPerDay) = 1 ∧
        (dayNumber L.CreatedAt + 1) * nsPerDay ≤ L.CreatedAt + nsPerDay) := by
  intro L
  refine ⟨⟨beginningOfWeek_le L, lt_beginningOfWeek_add_week L,
    beginningOfWeek_midnight L, beginningOfWeek_monday L⟩, ?_, ?_, ?_⟩
  · intro now h
    exact ⟨currentWeek_eq_ediv L h, currentWeek_nonneg L h⟩
  · intro now h1 h2
    have hsub : goSub now (beginningOfWeek L) = now - beginningOfWeek L := by
      apply goSub_eq
      · unfold nsPerWeek at h1
        omega
      · omega
    simp only [currentWeek, hsub]
    apply truncQ_eq_zero_of_neg_window
    · rw [lt_div_iff nsPerWeek_pos]
      have hq : ((beginningOfWeek L - now : ℤ) : ℚ) < ((nsPerWeek : ℤ) : ℚ) := by
        exact_mod_cast (by omega : beginningOfWeek L - now < nsPerWeek)
      push_cast at hq ⊢
      linarith
    · apply div_nonpos_of_nonpos_of_nonneg _ (le_of_lt nsPerWeek_pos)
      exact_mod_cast (by omega : now - beginningOfWeek L ≤ 0)
  · intro hsun
    have hanch : beginningOfWeek L = (dayNumber L.CreatedAt - 6) * nsPerDay := by
      unfold beginningOfWeek
      rw [hsun]
      norm_num
    constructor
    · have hsub : goSub ((dayNumber L.CreatedAt + 1) * nsPerDay) (beginningOfWeek L)
          = nsPerWeek := by
        rw [hanch]
        unfold goSub nsPerWeek nsPerDay
        omega
      simp only [currentWeek, hsub]
      rw [show ((nsPerWeek : ℤ) : ℚ) / ((nsPerWeek : ℤ) : ℚ) = ((1 : ℤ) : ℚ) by
        rw [div_self (ne_of_gt nsPerWeek_pos)]; norm_num]
      exact truncQ_intCast 1
    · unfold dayNumber nsPerDay
      omega

/-- C2 counterexample: the claim asserts `currentWeek` is clamped to ≥ 0
and returns 0 for every `now` at or before the anchor; but for a loan
created Monday Jan 5 1970 00:00 UTC, exactly one week before the anchor
the code returns -1 (Go `int32` conversion truncates toward zero, it
does not clamp). -/
theorem claim_C2_counterexample :
    (-259200000000000 : ℤ) ≤
      beginningOfWeek ⟨1, 7, 100, 10, 110, LoanStatusOngoing, 345600000000000, 345600000000000⟩ ∧
    currentWeek
        (some ⟨1, 7, 100, 10, 110, LoanStatusOngoing, 345600000000000, 345600000000000⟩)
        (-259200000000000) = -1 := by
  constructor
  · decide
  · simp only [currentWeek]
    have h1 : goSub (-259200000000000)
        (beginningOfWeek ⟨1, 7, 100, 10, 110, LoanStatusOngoing, 345600000000000,
          345600000000000⟩) = -604800000000000 := by decide
    rw [h1]
    rw [show ((-604800000000000 : ℤ) : ℚ) / ((nsPerWeek : ℤ) : ℚ) = ((-1 : ℤ) : ℚ) by
      unfold nsPerWeek; norm_num]
    exact truncQ_intCast (-1)

/-- C2 witness: for a loan created on Sunday Jan 4 1970 at noon, the
anchor is the Monday before, the following Monday (at most a day after
creation) is already week 1, and any time in the week before the anchor
gives week 0. -/
theorem claim_C2_currentWeek_anchor_witness :
    beginningOfWeek ⟨1, 7, 100, 10, 110, LoanStatusOngoing, 302400000000000, 302400000000000⟩
        ≤ 302400000000000 ∧
    currentWeek (some ⟨1, 7, 100, 10, 110, LoanStatusOngoing, 302400000000000, 302400000000000⟩)
        345600000000000 = 1 ∧
    currentWeek (some ⟨1, 7, 100, 10, 110, LoanStatusOngoing, 302400000000000, 302400000000000⟩)
        (-259200000000000) = 0 := by
  have h := claim_C2_currentWeek_anchor
    ⟨1, 7, 100, 10, 110, LoanStatusOngoing, 302400000000000, 302400000000000⟩
  refine ⟨h.1.1, ?_, ?_⟩
  · have hsun := h.2.2.2 (by decide)
    have : ((dayNumber (302400000000000 : ℤ) + 1) * nsPerDay) = 345600000000000 := by decide
    rw [← this]
    exact hsun.1
  · exact h.2.2.1 (-259200000000000) (by decide) (by decide)

theorem createLoanPayment_error_mem {loanID : UUID} {amount : ℚ} {pid : UUID} {ts : ℤ}
    {e : BusinessError} (h : CreateLoanPayment loanID amount pid ts = .error e) :
    e = ErrLoanPaymentEmptyID ∨ e = ErrLoanPaymentEmptyLoanID ∨
    e = ErrLoanPaymentInvalidAmount ∨ e = ErrLoanPaymentEmptyCreatedAt ∨
    e = ErrLoanPaymentEmptyUpdatedAt := by
  simp only [CreateLoanPayment] at h
  cases hv : LoanPayment.validate
      { ID := pid, LoanID := loanID, Amount := amount, CreatedAt := ts, UpdatedAt := ts } with
  | none =>
      rw [hv] at h
      simp at h
  | some e2 =>
      rw [hv] at h
      simp only [Except.error.injEq] at h
      subst h
      simp only [LoanPayment.validate] at hv
      split_ifs at hv <;> simp_all

/-- C1: for every loan state (including absent), time, cumulative paid
amount and tendered payment amount, `MakePayment` fails with
`LoanNotFound` exactly when the loan is absent; for a present loan it
fails with `CurrentWeekAlreadyPaid` exactly when the bill computed by
`CurrentBillAmount(now, paidAmount)` is zero, and (the bill being
nonzero) with `NotExactPaymentAmount` exactly when the tendered amount
differs from that bill; and on every failure no payment record is
produced (the result is the error alone) and the loan is unchanged. -/
theorem claim_C1_makePayment_errors :
    ∀ (l : Option Loan) (now : ℤ) (paidAmount paymentAmount : ℚ) (pid : UUID) (pts uts : ℤ),
      ((MakePayment l now paidAmount paymentAmount pid pts uts).1 =
          .error ErrLoanNotFound ↔ l = none) ∧
      (∀ L, l = some L →
        (((MakePayment l now paidAmount paymentAmount pid pts uts).1 =
            .error ErrLoanCurrentWeekAlreadyPaid ↔
          CurrentBillAmount (some L) now paidAmount = 0) ∧
        (CurrentBillAmount (some L) now paidAmount ≠ 0 →
          ((MakePayment l now paidAmount paymentAmount pid pts uts).1 =
              .error ErrLoanNotExactPaymentAmount ↔
            paymentAmount ≠ CurrentBillAmount (some L) now paidAmount)))) ∧
      (∀ e, (MakePayment l now paidAmount paymentAmount pid pts uts).1 = .error e →
        (MakePayment l now paidAmount paymentAmount pid pts uts).2 = l) := by
  intro l now paid pay pid pts uts
  match l with
  | none =>
      refine ⟨by simp [MakePayment], ?_, ?_⟩
      · intro L hL
        exact Option.noConfusion hL
      · intro e _
        rfl
  | some L =>
      by_cases h1 : CurrentBillAmount (some L) now paid = 0
      · have hres : MakePayment (some L) now paid pay pid pts uts =
            (.error ErrLoanCurrentWeekAlreadyPaid, some L) := by
          simp only [MakePayment]
          rw [if_pos h1]
        rw [hres]
        refine ⟨?_, ?_, ?_⟩
        · constructor
          · intro hc
            exact absurd (Except.error.inj hc) (by decide)
          · intro hc
            exact Option.noConfusion hc
        · intro L2 hL2
          obtain rfl : L2 = L := by injection hL2.symm
          refine ⟨iff_of_true rfl h1, ?_⟩
          intro hne
          exact absurd h1 hne
        · intro e _
          rfl
      · by_cases h2 : CurrentBillAmount (some L) now paid ≠ pay
        · have hres : MakePayment (some L) now paid pay pid pts uts =
              (.error ErrLoanNotExactPaymentAmount, some L) := by
            simp only [MakePayment]
            rw [if_neg h1, if_pos h2]
          rw [hres]
          refine ⟨?_, ?_, ?_⟩
          · constructor
            · intro hc
              exact absurd (Except.error.inj hc) (by decide)
            · intro hc
              exact Option.noConfusion hc
          · intro L2 hL2
            obtain rfl : L2 = L := by injection hL2.symm
            refine ⟨?_, ?_⟩
            · constructor
              · intro hc
                exact absurd (Except.error.inj hc) (by decide)
              · intro hc
                exact absurd hc h1
            · intro _
              exact iff_of_true rfl (Ne.symm h2)
          · intro e _
            rfl
        · push_neg at h2
          cases hcp : CreateLoanPayment L.ID pay pid pts with
          | error e2 =>
              have hres : MakePayment (some L) now paid pay pid pts uts =
                  (.error e2, some L) := by
                simp only [MakePayment]
                rw [if_neg h1, if_neg (by simpa using h2), hcp]
              rw [hres]
              have hmem := createLoanPayment_error_mem hcp
              refine ⟨?_, ?_, ?_⟩
              · constructor
                · intro hc
                  have he := Except.error.inj hc
                  subst he
                  rcases hmem with h | h | h | h | h <;> exact absurd h (by decide)
                · intro hc
                  exact Option.noConfusion hc
              · intro L2 hL2
                obtain rfl : L2 = L := by injection hL2.symm
                refine ⟨?_, ?_⟩
                · constructor
                  · intro hc
                    have he := Except.error.inj hc
                    subst he
                    rcases hmem with h | h | h | h | h <;> exact absurd h (by decide)
                  · intro hc
                    exact absurd hc h1
                · intro _
                  constructor
                  · intro hc
                    have he := Except.error.inj hc
                    subst he
                    rcases hmem with h | h | h | h | h <;> exact absurd h (by decide)
                  · intro hc
                    exact absurd h2.symm hc
              · intro e _
                rfl
          | ok payment =>
              by_cases h3 : paid + pay = L.PaymentAmount
              · have hres : MakePayment (some L) now paid pay pid pts uts =
                    (.ok (payment, true),
                      some { L with Status := LoanStatusPaid, UpdatedAt := uts }) := by
                  simp only [MakePayment]
                  rw [if_neg h1, if_neg (by simpa using h2), hcp]
                  dsimp only
                  rw [if_pos h3]
                rw [hres]
                refine ⟨?_, ?_, ?_⟩
                · constructor
                  · intro hc
                    exact Except.noConfusion hc
                  · intro hc
                    exact Option.noConfusion hc
                · intro L2 hL2
                  obtain rfl : L2 = L := by injection hL2.symm
                  refine ⟨?_, ?_⟩
                  · constructor
                    · intro hc
                      exact Except.noConfusion hc
                    · intro hc
                      exact absurd hc h1
                  · intro _
                    constructor
                    · intro hc
                      exact Except.noConfusion hc
                    · intro hc
                      exact absurd h2.symm hc
                · intro e hc
                  exact Except.noConfusion hc
              · have hres : MakePayment (some L) now paid pay pid pts uts =
                    (.ok (payment, false), some L) := by
                  simp only [MakePayment]
                  rw [if_neg h1, if_neg (by simpa using h2), hcp]
                  dsimp only
                  rw [if_neg h3]
                rw [hres]
                refine ⟨?_, ?_, ?_⟩
                · constructor
                  · intro hc
                    exact Except.noConfusion hc
                  · intro hc
                    exact Option.noConfusion hc
                · intro L2 hL2
                  obtain rfl : L2 = L := by injection hL2.symm
                  refine ⟨?_, ?_⟩
                  · constructor
                    · intro hc
                      exact Except.noConfusion hc
                    · intro hc
                      exact absurd hc h1
                  · intro _
                    constructor
                    · intro hc
                      exact Except.noConfusion hc
                    · intro hc
                      exact absurd h2.symm hc
                · intro e hc
                  exact Except.noConfusion hc

/-- C1 witness: a payment against an absent loan fails with
`LoanNotFound`, and a freshly created loan (zero bill in its creation
week) rejects any payment with `CurrentWeekAlreadyPaid`, leaving the
loan unchanged. -/
theorem claim_C1_makePayment_errors_witness :
    (MakePayment none 345600000000000 0 100 1 345600000000000 345600000000000).1 =
      .error ErrLoanNotFound ∧
    (MakePayment
        (some ⟨1, 7, 100, 10, 110, LoanStatusOngoing, 345600000000000, 345600000000000⟩)
        345600000000000 0 100 1 345600000000000 345600000000000).1 =
      .error ErrLoanCurrentWeekAlreadyPaid ∧
    (MakePayment
        (some ⟨1, 7, 100, 10, 110, LoanStatusOngoing, 345600000000000, 345600000000000⟩)
        345600000000000 0 100 1 345600000000000 345600000000000).2 =
      some ⟨1, 7, 100, 10, 110, LoanStatusOngoing, 345600000000000, 345600000000000⟩ := by
  have hbill : CurrentBillAmount
      (some ⟨1, 7, 100, 10, 110, LoanStatusOngoing, 345600000000000, 345600000000000⟩)
      345600000000000 0 = 0 := by
    have hcw : currentWeek
        (some ⟨1, 7, 100, 10, 110, LoanStatusOngoing, 345600000000000, 345600000000000⟩)
        345600000000000 = 0 := by
      rw [currentWeek_eq_ediv _ (by decide)]
      decide
    have hob : paymentObligation
        ⟨1, 7, 100, 10, 110, LoanStatusOngoing, 345600000000000, 345600000000000⟩
        345600000000000 = 0 := by
      unfold paymentObligation
      rw [hcw, if_pos (by norm_num)]
      norm_num
    rw [currentBill_eq, hob]
    norm_num
  have h := claim_C1_makePayment_errors
    (some ⟨1, 7, 100, 10, 110, LoanStatusOngoing, 345600000000000, 345600000000000⟩)
    345600000000000 0 100 1 345600000000000 345600000000000
  have h0 := claim_C1_makePayment_errors none 345600000000000 0 100 1
    345600000000000 345600000000000
  obtain ⟨herr, hframe⟩ := (h.2.1 _ rfl)
  have hres := herr.mpr hbill
  exact ⟨h0.1.mpr rfl, hres, h.2.2 _ hres⟩

/-- C5 (amended): `weeklyPaymentAmount` floors the quotient that
`decimal.Div` returns, which is the exact quotient rounded half away from
zero at 16 decimal places.  Whenever the exact quotient
`totalPaymentAmount / durationWeeks` is an integer or lies more than half
an ulp (5·10⁻¹⁷) below its ceiling, this equals
`floor(totalPaymentAmount / durationWeeks)` — in particular on all the
quoted examples; in the remaining sliver the 16-place rounding crosses
the ceiling first (see the counterexample). -/
theorem claim_C5_weekly_floor :
    ∀ (L : Loan), 0 < L.PaymentAmount → 0 < L.PaymentDurationWeeks →
      ((⌈L.PaymentAmount / (L.PaymentDurationWeeks : ℚ)⌉ : ℚ) =
          L.PaymentAmount / (L.PaymentDurationWeeks : ℚ) ∨
        halfUlp16 < (⌈L.PaymentAmount / (L.PaymentDurationWeeks : ℚ)⌉ : ℚ) -
          L.PaymentAmount / (L.PaymentDurationWeeks : ℚ)) →
      weeklyPaymentAmount (some L) =
        (⌊L.PaymentAmount / (L.PaymentDurationWeeks : ℚ)⌋ : ℚ) := by
  intro L ht hd hgap
  simp only [weeklyPaymentAmount]
  have hq : 0 ≤ L.PaymentAmount / (L.PaymentDurationWeeks : ℚ) := by
    apply div_nonneg (le_of_lt ht)
    exact_mod_cast le_of_lt hd
  exact_mod_cast congrArg (fun z : ℤ => (z : ℚ)) (truncQ_divRound16_eq_floor hq hgap)

/-- C5 witness: total 10000 over 3 weeks gives weekly 3333, over 10 weeks
1000, over 1 week the full total. -/
theorem claim_C5_weekly_floor_witness :
    weeklyPaymentAmount
        (some ⟨1, 7, 9000, 3, 10000, LoanStatusOngoing, 345600000000000, 345600000000000⟩)
      = 3333 ∧
    weeklyPaymentAmount
        (some ⟨1, 7, 9000, 10, 10000, LoanStatusOngoing, 345600000000000, 345600000000000⟩)
      = 1000 ∧
    weeklyPaymentAmount
        (some ⟨1, 7, 9000, 1, 10000, LoanStatusOngoing, 345600000000000, 345600000000000⟩)
      = 10000 := by
  have hc3 : ⌈(10000 : ℚ) / ((3 : ℤ) : ℚ)⌉ = 3334 := by
    rw [Int.ceil_eq_iff]
    constructor <;> norm_num
  have hf3 : ⌊(10000 : ℚ) / ((3 : ℤ) : ℚ)⌋ = 3333 := by
    rw [Int.floor_eq_iff]
    constructor <;> norm_num
  refine ⟨?_, ?_, ?_⟩
  · have h := claim_C5_weekly_floor
      ⟨1, 7, 9000, 3, 10000, LoanStatusOngoing, 345600000000000, 345600000000000⟩
      (by norm_num) (by norm_num)
      (Or.inr (by
        show halfUlp16 < (⌈(10000 : ℚ) / ((3 : ℤ) : ℚ)⌉ : ℚ) - (10000 : ℚ) / ((3 : ℤ) : ℚ)
        rw [hc3]
        unfold halfUlp16
        norm_num))
    rw [h]
    show ((⌊(10000 : ℚ) / ((3 : ℤ) : ℚ)⌋ : ℤ) : ℚ) = 3333
    rw [hf3]
    norm_num
  · have h := claim_C5_weekly_floor
      ⟨1, 7, 9000, 10, 10000, LoanStatusOngoing, 345600000000000, 345600000000000⟩
      (by norm_num) (by norm_num)
      (Or.inl (by
        show (⌈(10000 : ℚ) / ((10 : ℤ) : ℚ)⌉ : ℚ) = (10000 : ℚ) / ((10 : ℤ) : ℚ)
        rw [show (10000 : ℚ) / ((10 : ℤ) : ℚ) = ((1000 : ℤ) : ℚ) by norm_num,
          Int.ceil_intCast]))
    rw [h]
    show ((⌊(10000 : ℚ) / ((10 : ℤ) : ℚ)⌋ : ℤ) : ℚ) = 1000
    rw [show (10000 : ℚ) / ((10 : ℤ) : ℚ) = ((1000 : ℤ) : ℚ) by norm_num, Int.floor_intCast]
    norm_num
  · have h := claim_C5_weekly_floor
      ⟨1, 7, 9000, 1, 10000, LoanStatusOngoing, 345600000000000, 345600000000000⟩
      (by norm_num) (by norm_num)
      (Or.inl (by
        show (⌈(10000 : ℚ) / ((1 : ℤ) : ℚ)⌉ : ℚ) = (10000 : ℚ) / ((1 : ℤ) : ℚ)
        rw [show (10000 : ℚ) / ((1 : ℤ) : ℚ) = ((10000 : ℤ) : ℚ) by norm_num,
          Int.ceil_intCast]))
    rw [h]
    show ((⌊(10000 : ℚ) / ((1 : ℤ) : ℚ)⌋ : ℤ) : ℚ) = 10000
    rw [show (10000 : ℚ) / ((1 : ℤ) : ℚ) = ((10000 : ℤ) : ℚ) by norm_num, Int.floor_intCast]
    norm_num

/-- C5 counterexample: for total 1.9999999999999999 (reachable from
principal 0.9999999999999999) over 2 weeks the exact quotient is
0.99999999999999995, whose 16-place half-away rounding is exactly 1, so
the code computes weekly = 1 while `floor(total / duration) = 0`: weekly
does not always equal the floor of the exact quotient. -/
theorem claim_C5_counterexample :
    weeklyPaymentAmount
        (some ⟨1, 7, 9999999999999999/10000000000000000, 2, 19999999999999999/10000000000000000,
          LoanStatusOngoing, 345600000000000, 345600000000000⟩)
      = 1 ∧
    ⌊(19999999999999999/10000000000000000 : ℚ) / ((2 : ℤ) : ℚ)⌋ = 0 := by
  constructor
  · show (truncQ (divRound16 ((19999999999999999/10000000000000000 : ℚ) / ((2 : ℤ) : ℚ))) : ℚ) = 1
    have h1 : roundHalfAway ((19999999999999999/10000000000000000 : ℚ) / ((2 : ℤ) : ℚ) *
        ((divPrecisionPow : ℤ) : ℚ)) = 10000000000000000 := by
      unfold roundHalfAway divPrecisionPow
      rw [if_pos (by norm_num), Int.floor_eq_iff]
      constructor <;> norm_num
    unfold divRound16
    rw [h1]
    rw [show ((10000000000000000 : ℤ) : ℚ) / ((divPrecisionPow : ℤ) : ℚ) = ((1 : ℤ) : ℚ) by
      unfold divPrecisionPow
      norm_num]
    rw [truncQ_intCast]
    norm_num
  · rw [Int.floor_eq_iff]
    constructor <;> norm_num

/-- C6 (amended): delinquency is false when the status is Paid or the
paid amount equals the total; otherwise (positive total, positive
duration, nonzero weekly installment) the loan is delinquent exactly when
the bill-to-weekly ratio, rounded to the nearest whole number with ties
away from zero, is strictly greater than 2 — provided the exact ratio
lies more than half an ulp (5·10⁻¹⁷) below the nearest half-integer
boundary above it; in the remaining sliver the 16-place intermediate
division rounds up across the boundary first (see the counterexample).
The quoted 14-day / 21-day boundary examples hold (see the witness). -/
theorem claim_C6_delinquency :
    ∀ (L : Loan) (now : ℤ) (paid : ℚ),
      ((L.Status = LoanStatusPaid ∨ L.PaymentAmount = paid) →
        IsDelinquent (some L) now paid = some false) ∧
      (L.Status ≠ LoanStatusPaid → L.PaymentAmount ≠ paid →
        0 < L.PaymentAmount → 0 < L.PaymentDurationWeeks →
        weeklyPaymentAmount (some L) ≠ 0 →
        halfUlp16 <
          (⌊CurrentBillAmount (some L) now paid / weeklyPaymentAmount (some L) + 1/2⌋ : ℚ)
            + 1/2 - CurrentBillAmount (some L) now paid / weeklyPaymentAmount (some L) →
        IsDelinquent (some L) now paid =
          some (decide (2 <
            ⌊CurrentBillAmount (some L) now paid / weeklyPaymentAmount (some L) + 1/2⌋))) := by
  intro L now paid
  constructor
  · intro h
    simp only [IsDelinquent]
    rw [if_pos h]
  · intro hst hpa ht hd hwk hgap
    have hwknn : 0 ≤ weeklyPaymentAmount (some L) := weekly_nonneg L (le_of_lt ht) hd
    have hwkpos : 0 < weeklyPaymentAmount (some L) := lt_of_le_of_ne hwknn (Ne.symm hwk)
    have hr : 0 ≤ CurrentBillAmount (some L) now paid / weeklyPaymentAmount (some L) :=
      div_nonneg (bill_nonneg _ _ _) hwknn
    simp only [IsDelinquent]
    rw [if_neg (by tauto), if_neg hwk]
    rw [roundHalfAway_divRound16 hr hgap]
    rfl

/-- C6 witness: with total 1000 over 10 weeks and nothing paid, a loan is
not delinquent 14 days in (2 unpaid weeks) and is delinquent 21 days in
(3 unpaid weeks). -/
theorem claim_C6_delinquency_witness :
    IsDelinquent
        (some ⟨1, 7, 900, 10, 1000, LoanStatusOngoing, 345600000000000, 345600000000000⟩)
        1900800000000000 0 = some false ∧
    IsDelinquent
        (some ⟨1, 7, 900, 10, 1000, LoanStatusOngoing, 345600000000000, 345600000000000⟩)
        2160000000000000 0 = some true := by
  have hwk : weeklyPaymentAmount
      (some ⟨1, 7, 900, 10, 1000, LoanStatusOngoing, 345600000000000, 345600000000000⟩)
      = 100 := by
    show (truncQ (divRound16 ((1000 : ℚ) / ((10 : ℤ) : ℚ))) : ℚ) = 100
    rw [show (1000 : ℚ) / ((10 : ℤ) : ℚ) = ((100 : ℤ) : ℚ) by norm_num,
      divRound16_intCast, truncQ_intCast]
    norm_num
  constructor
  · have hcw : currentWeek
        (some ⟨1, 7, 900, 10, 1000, LoanStatusOngoing, 345600000000000, 345600000000000⟩)
        1900800000000000 = 2 := by
      rw [currentWeek_eq_ediv _ (by decide)]
      decide
    have hbill : CurrentBillAmount
        (some ⟨1, 7, 900, 10, 1000, LoanStatusOngoing, 345600000000000, 345600000000000⟩)
        1900800000000000 0 = 200 := by
      rw [currentBill_eq]
      have hob : paymentObligation
          ⟨1, 7, 900, 10, 1000, LoanStatusOngoing, 345600000000000, 345600000000000⟩
          1900800000000000 = 200 := by
        unfold paymentObligation
        rw [hcw, if_pos (by norm_num), hwk]
        norm_num
      rw [hob]
      norm_num
    have hfl : ⌊(200 : ℚ) / (100 : ℚ) + 1/2⌋ = 2 := by
      rw [Int.floor_eq_iff]
      constructor <;> norm_num
    have h := (claim_C6_delinquency
      ⟨1, 7, 900, 10, 1000, LoanStatusOngoing, 345600000000000, 345600000000000⟩
      1900800000000000 0).2
      (by norm_num [LoanStatusPaid, LoanStatusOngoing]) (by norm_num) (by norm_num)
      (by norm_num) (by rw [hwk]; norm_num)
      (by rw [hbill, hwk, hfl]
          unfold halfUlp16
          norm_num)
    rw [h, hbill, hwk, hfl]
    norm_num
  · have hcw : currentWeek
        (some ⟨1, 7, 900, 10, 1000, LoanStatusOngoing, 345600000000000, 345600000000000⟩)
        2160000000000000 = 3 := by
      rw [currentWeek_eq_ediv _ (by decide)]
      decide
    have hbill : CurrentBillAmount
        (some ⟨1, 7, 900, 10, 1000, LoanStatusOngoing, 345600000000000, 345600000000000⟩)
        2160000000000000 0 = 300 := by
      rw [currentBill_eq]
      have hob : paymentObligation
          ⟨1, 7, 900, 10, 1000, LoanStatusOngoing, 345600000000000, 345600000000000⟩
          2160000000000000 = 300 := by
        unfold paymentObligation
        rw [hcw, if_pos (by norm_num), hwk]
        norm_num
      rw [hob]
      norm_num
    have hfl : ⌊(300 : ℚ) / (100 : ℚ) + 1/2⌋ = 3 := by
      rw [Int.floor_eq_iff]
      constructor <;> norm_num
    have h := (claim_C6_delinquency
      ⟨1, 7, 900, 10, 1000, LoanStatusOngoing, 345600000000000, 345600000000000⟩
      2160000000000000 0).2
      (by norm_num [LoanStatusPaid, LoanStatusOngoing]) (by norm_num) (by norm_num)
      (by norm_num) (by rw [hwk]; norm_num)
      (by rw [hbill, hwk, hfl]
          unfold halfUlp16
          norm_num)
    rw [h, hbill, hwk, hfl]
    norm_num

/-- C6 counterexample: total 60000000000000000 over 3 weeks (weekly
2·10¹⁶), term elapsed, paid 10000000000000001: the exact
bill-to-weekly ratio is 2.49999999999999995, strictly below 2.5, so its
nearest whole number is 2 under any tie policy and the claim says not
delinquent; but the 16-place division rounds the ratio to 2.5, the
half-away rounding lifts it to 3, and the code flags the loan
delinquent. -/
theorem claim_C6_counterexample :
    IsDelinquent
        (some ⟨1, 7, 54545454545454545, 3, 60000000000000000, LoanStatusOngoing,
          345600000000000, 345600000000000⟩)
        2160000000000000 10000000000000001 = some true ∧
    2 ≤ CurrentBillAmount
        (some ⟨1, 7, 54545454545454545, 3, 60000000000000000, LoanStatusOngoing,
          345600000000000, 345600000000000⟩)
        2160000000000000 10000000000000001 /
      weeklyPaymentAmount
        (some ⟨1, 7, 54545454545454545, 3, 60000000000000000, LoanStatusOngoing,
          345600000000000, 345600000000000⟩) ∧
    CurrentBillAmount
        (some ⟨1, 7, 54545454545454545, 3, 60000000000000000, LoanStatusOngoing,
          345600000000000, 345600000000000⟩)
        2160000000000000 10000000000000001 /
      weeklyPaymentAmount
        (some ⟨1, 7, 54545454545454545, 3, 60000000000000000, LoanStatusOngoing,
          345600000000000, 345600000000000⟩) < 5/2 := by
  have hwk : weeklyPaymentAmount
      (some ⟨1, 7, 54545454545454545, 3, 60000000000000000, LoanStatusOngoing,
        345600000000000, 345600000000000⟩) = 20000000000000000 := by
    show (truncQ (divRound16 ((60000000000000000 : ℚ) / ((3 : ℤ) : ℚ))) : ℚ) = 20000000000000000
    rw [show (60000000000000000 : ℚ) / ((3 : ℤ) : ℚ) = ((20000000000000000 : ℤ) : ℚ) by
      norm_num, divRound16_intCast, truncQ_intCast]
    norm_num
  have hcw : currentWeek
      (some ⟨1, 7, 54545454545454545, 3, 60000000000000000, LoanStatusOngoing,
        345600000000000, 345600000000000⟩) 2160000000000000 = 3 := by
    rw [currentWeek_eq_ediv _ (by decide)]
    decide
  have hbill : CurrentBillAmount
      (some ⟨1, 7, 54545454545454545, 3, 60000000000000000, LoanStatusOngoing,
        345600000000000, 345600000000000⟩)
      2160000000000000 10000000000000001 = 49999999999999999 := by
    rw [currentBill_eq]
    have hob : paymentObligation
        ⟨1, 7, 54545454545454545, 3, 60000000000000000, LoanStatusOngoing,
          345600000000000, 345600000000000⟩ 2160000000000000 = 60000000000000000 := by
      unfold paymentObligation
      rw [hcw, if_neg (by norm_num)]
    rw [hob]
    norm_num
  refine ⟨?_, ?_, ?_⟩
  · simp only [IsDelinquent]
    rw [if_neg (by norm_num [LoanStatusPaid, LoanStatusOngoing]), if_neg (by rw [hwk]; norm_num)]
    rw [hbill, hwk]
    have hdr : divRound16 ((49999999999999999 : ℚ) / 20000000000000000) = 5/2 := by
      have h1 : roundHalfAway ((49999999999999999 : ℚ) / 20000000000000000 *
          ((divPrecisionPow : ℤ) : ℚ)) = 25000000000000000 := by
        unfold roundHalfAway divPrecisionPow
        rw [if_pos (by norm_num), Int.floor_eq_iff]
        constructor <;> norm_num
      unfold divRound16
      rw [h1]
      unfold divPrecisionPow
      norm_num
    have hrha : roundHalfAway ((5 : ℚ)/2) = 3 := by
      unfold roundHalfAway
      rw [if_pos (by norm_num), Int.floor_eq_iff]
      constructor <;> norm_num
    rw [hdr, hrha]
    rfl
  · rw [hbill, hwk]
    norm_num
  · rw [hbill, hwk]
    norm_num

/-- C10 (amended): for every loan with duration ≥ 1 whose total payment
amount is at least its duration in weeks, the weekly installment is at
least 1, so the division inside `IsDelinquent` is well-defined and
`IsDelinquent` never panics.  Validation alone does not guarantee this:
a validated loan with total below its duration has weekly installment 0
and `IsDelinquent` divides by zero (see the counterexample). -/
theorem claim_C10_weekly_positive :
    ∀ (L : Loan), 0 < L.PaymentDurationWeeks →
      (L.PaymentDurationWeeks : ℚ) ≤ L.PaymentAmount →
      1 ≤ weeklyPaymentAmount (some L) ∧
      ∀ (now : ℤ) (paid : ℚ), IsDelinquent (some L) now paid ≠ none := by
  intro L hd hTd
  have hdq : (0 : ℚ) < (L.PaymentDurationWeeks : ℚ) := by exact_mod_cast hd
  have hq1 : (1 : ℚ) ≤ L.PaymentAmount / (L.PaymentDurationWeeks : ℚ) := by
    rw [le_div_iff hdq, one_mul]
    exact hTd
  have hq2 : (1 : ℚ) ≤ divRound16 (L.PaymentAmount / (L.PaymentDurationWeeks : ℚ)) := by
    calc (1 : ℚ) = divRound16 ((1 : ℤ) : ℚ) := by
          rw [divRound16_intCast]
          norm_num
      _ ≤ divRound16 (L.PaymentAmount / (L.PaymentDurationWeeks : ℚ)) :=
          divRound16_mono (by push_cast; exact hq1)
  have hw : 1 ≤ truncQ (divRound16 (L.PaymentAmount / (L.PaymentDurationWeeks : ℚ))) :=
    one_le_truncQ hq2
  have hwq : 1 ≤ weeklyPaymentAmount (some L) := by
    simp only [weeklyPaymentAmount]
    exact_mod_cast hw
  refine ⟨hwq, ?_⟩
  intro now paid
  simp only [IsDelinquent]
  split
  · simp
  · rw [if_neg (by intro h0; rw [h0] at hwq; norm_num at hwq)]
    simp

/-- C10 witness: a loan with total 1000 over 10 weeks has weekly
installment at least 1 and its delinquency check never panics. -/
theorem claim_C10_weekly_positive_witness :
    1 ≤ weeklyPaymentAmount
        (some ⟨1, 7, 900, 10, 1000, LoanStatusOngoing, 345600000000000, 345600000000000⟩) ∧
    IsDelinquent
        (some ⟨1, 7, 900, 10, 1000, LoanStatusOngoing, 345600000000000, 345600000000000⟩)
        345600000000000 0 ≠ none := by
  have h := claim_C10_weekly_positive
    ⟨1, 7, 900, 10, 1000, LoanStatusOngoing, 345600000000000, 345600000000000⟩
    (by norm_num) (by norm_num)
  exact ⟨h.1, h.2 345600000000000 0⟩

/-- C10 counterexample: `CreateLoan` accepts principal 0.5 over 2 weeks
(total 1.5); the resulting validated loan has weekly installment
`RoundDown(1.5 / 2) = 0`, and on an Ongoing state with paid 0 the
delinquency check divides by zero (`decimal.Div` panics, modelled as
`none`): validation does not make the division well-defined. -/
theorem claim_C10_counterexample :
    CreateLoan 1 (1/2) 2 1 345600000000000 =
      .ok ⟨1, 1, 1/2, 2, 3/2, LoanStatusOngoing, 345600000000000, 345600000000000⟩ ∧
    weeklyPaymentAmount
        (some ⟨1, 1, 1/2, 2, 3/2, LoanStatusOngoing, 345600000000000, 345600000000000⟩) = 0 ∧
    IsDelinquent
        (some ⟨1, 1, 1/2, 2, 3/2, LoanStatusOngoing, 345600000000000, 345600000000000⟩)
        345600000000000 0 = none := by
  have hra : roundAway ((1/2 : ℚ) * interestRate) = 1 := by
    unfold roundAway interestRate
    rw [if_pos (by norm_num), Int.ceil_eq_iff]
    constructor <;> norm_num
  have hpa : (1/2 : ℚ) + ((roundAway ((1/2 : ℚ) * interestRate) : ℤ) : ℚ) = 3/2 := by
    rw [hra]
    norm_num
  have hwk0 : weeklyPaymentAmount
      (some ⟨1, 1, 1/2, 2, 3/2, LoanStatusOngoing, 345600000000000, 345600000000000⟩) = 0 := by
    show (truncQ (divRound16 ((3/2 : ℚ) / ((2 : ℤ) : ℚ))) : ℚ) = 0
    rw [show (3/2 : ℚ) / ((2 : ℤ) : ℚ) = 3/4 by norm_num]
    rw [divRound16_exact (m := 7500000000000000)
      (by unfold divPrecisionPow; push_cast; norm_num)]
    rw [show truncQ (3/4 : ℚ) = 0 by
      rw [truncQ_of_nonneg (by norm_num), Int.floor_eq_iff]
      constructor <;> norm_num]
    norm_num
  refine ⟨?_, hwk0, ?_⟩
  · simp only [CreateLoan, hpa]
    have hval : Loan.validate
        ⟨1, 1, 1/2, 2, 3/2, LoanStatusOngoing, 345600000000000, 345600000000000⟩ = none := by
      simp only [Loan.validate]
      rw [if_neg (by decide), if_neg (by decide), if_neg (by norm_num),
        if_neg (by decide), if_neg (by norm_num), if_neg (by decide),
        if_neg (by decide), if_neg (by decide)]
    rw [hval]
  · simp only [IsDelinquent]
    rw [if_neg (by norm_num [LoanStatusOngoing, LoanStatusPaid]), if_pos hwk0]

/-- C7: a successful `MakePayment` whose payment completes the total
sets the status to Paid, refreshes the update timestamp and returns the
update flag true; every other successful call leaves the loan unchanged
and returns false.  Consequently, over any sequence of payment calls
against one Ongoing loan (with the data-model invariants), the
should-update flag is reported exactly once — on the single call whose
payment brings the cumulative paid amount to the total — and the final
status is Paid exactly when the total has been reached. -/
theorem claim_C7_terminal_transition :
    (∀ (L : Loan) (now : ℤ) (paid pay : ℚ) (pid : UUID) (pts uts : ℤ)
        (p : LoanPayment) (flag : Bool) (post : Option Loan),
      MakePayment (some L) now paid pay pid pts uts = (.ok (p, flag), post) →
      ((paid + pay = L.PaymentAmount →
          flag = true ∧ post = some { L with Status := LoanStatusPaid, UpdatedAt := uts }) ∧
        (paid + pay ≠ L.PaymentAmount → flag = false ∧ post = some L))) ∧
    (∀ (L : Loan) (calls : List PaymentCall) (L2 : Loan) (paid2 : ℚ) (flips : ℕ),
      0 < L.PaymentAmount → 1 ≤ L.PaymentDurationWeeks →
      L.PaymentDurationWeeks ≤ 2147483647 → L.Status = LoanStatusOngoing →
      runPayments (some L) 0 calls = (some L2, paid2, flips) →
      flips ≤ 1 ∧ (flips = 1 ↔ L2.Status = LoanStatusPaid) ∧
        (L2.Status = LoanStatusPaid ↔ paid2 = L.PaymentAmount)) := by
  constructor
  · intro L now paid pay pid pts uts p flag post h
    obtain ⟨-, -, hcases⟩ := makePayment_success_cases _ _ _ _ _ _ _ h
    constructor
    · intro hcomp
      rcases hcases with ⟨-, hflag, hpost⟩ | ⟨hncomp, -, -⟩
      · exact ⟨hflag, hpost⟩
      · exact absurd hcomp hncomp
    · intro hncomp
      rcases hcases with ⟨hcomp, -, -⟩ | ⟨-, hflag, hpost⟩
      · exact absurd hcomp hncomp
      · exact ⟨hflag, hpost⟩
  · intro L calls L2 paid2 flips ht hd1 hd2 hst hrun
    have hiff : L.Status = LoanStatusPaid ↔ (0 : ℚ) = L.PaymentAmount := by
      constructor
      · intro h
        rw [hst] at h
        exact absurd h (by decide)
      · intro h
        exact absurd h.symm (ne_of_gt ht)
    obtain ⟨L2i, paid2i, k2, hfold, hTi, hDi, hle, hub, hiv, hk⟩ :=
      runPayments_inv L.PaymentAmount L.PaymentDurationWeeks ht hd1 hd2 calls L 0 0
        rfl rfl (le_of_lt ht) hiff
    rw [runPayments] at hrun
    rw [hfold, Prod.mk.injEq, Prod.mk.injEq] at hrun
    obtain ⟨hL2, hp2, hf2⟩ := hrun
    obtain rfl : L2i = L2 := Option.some.inj hL2
    subst hp2
    subst hf2
    have hT0 : (0 : ℚ) ≠ L.PaymentAmount := ne_of_lt ht
    simp only [Nat.zero_add] at hk
    constructor
    · rw [hk]
      split <;> omega
    · refine ⟨?_, hiv⟩
      rw [hk]
      by_cases hp : paid2i = L.PaymentAmount
      · rw [if_pos ⟨hT0, hp⟩]
        exact iff_of_true rfl (hiv.mpr hp)
      · rw [if_neg (by tauto)]
        constructor
        · intro h01
          exact absurd h01 (by decide)
        · intro hpd
          exact absurd (hiv.mp hpd) hp

/-- C7 witness: a single-week loan of total 1000 created Monday Jan 5
1970, paid in full one week later: the call reports the update flag,
returns the loan with status Paid and refreshed update timestamp, and
over the one-call sequence the flip count is exactly 1. -/
theorem claim_C7_terminal_transition_witness :
    (MakePayment
        (some ⟨1, 7, 900, 1, 1000, LoanStatusOngoing, 345600000000000, 345600000000000⟩)
        950400000000000 0 1000 2 950400000000000 950400000000000).2 =
      some ⟨1, 7, 900, 1, 1000, LoanStatusPaid, 345600000000000, 950400000000000⟩ ∧
    (⟨1, 7, 900, 1, 1000, LoanStatusPaid, 345600000000000, 950400000000000⟩ : Loan).Status =
      LoanStatusPaid := by
  have hcw : currentWeek
      (some ⟨1, 7, 900, 1, 1000, LoanStatusOngoing, 345600000000000, 345600000000000⟩)
      950400000000000 = 1 := by
    rw [currentWeek_eq_ediv _ (by decide)]
    decide
  have hbill : CurrentBillAmount
      (some ⟨1, 7, 900, 1, 1000, LoanStatusOngoing, 345600000000000, 345600000000000⟩)
      950400000000000 0 = 1000 := by
    rw [currentBill_eq]
    have hob : paymentObligation
        ⟨1, 7, 900, 1, 1000, LoanStatusOngoing, 345600000000000, 345600000000000⟩
        950400000000000 = 1000 := by
      unfold paymentObligation
      rw [hcw, if_neg (by norm_num)]
    rw [hob]
    norm_num
  have hcp : CreateLoanPayment 1 1000 2 950400000000000 =
      .ok ⟨2, 1, 1000, 950400000000000, 950400000000000⟩ := by
    simp only [CreateLoanPayment]
    have hpv : LoanPayment.validate
        ⟨2, 1, 1000, 950400000000000, 950400000000000⟩ = none := by
      simp only [LoanPayment.validate]
      rw [if_neg (by decide), if_neg (by decide), if_neg (by norm_num),
        if_neg (by decide), if_neg (by decide)]
    rw [hpv]
  have hres : MakePayment
      (some ⟨1, 7, 900, 1, 1000, LoanStatusOngoing, 345600000000000, 345600000000000⟩)
      950400000000000 0 1000 2 950400000000000 950400000000000 =
      (.ok (⟨2, 1, 1000, 950400000000000, 950400000000000⟩, true),
        some ⟨1, 7, 900, 1, 1000, LoanStatusPaid, 345600000000000, 950400000000000⟩) := by
    simp only [MakePayment]
    rw [hbill, if_neg (by norm_num), if_neg (by norm_num), hcp]
    dsimp only
    rw [if_pos (by norm_num)]
  have hpc := (claim_C7_terminal_transition.1 _ _ _ _ _ _ _ _ _ _ hres).1 (by norm_num)
  exact ⟨hpc.2 ▸ (by rw [hres]), rfl⟩

end BillingEngine
